import Mathlib

/-!
Verification of the itinerary-construction core of the reel2real repository.

The central function is build_itinerary (src/backend/itinerary_algorithm.py): a
greedy, time-window-constrained route builder with automatic lunch insertion and
a hotel-return / dinner step.  This file gives a shallow embedding of that
function (and of the meal-policy fragments of itinerary/api.py,
itinerary_generator.py, and the restaurant-finder fallback of
location_services.py) and proves / refutes the stated properties.

Conventions of the embedding:
* Python ints are Int; minutes from midnight are Int.
* The travel-time matrix is a total function Nat -> Nat -> Int (the Python code
  indexes travel_time[current][i] with indices assumed in range).
* List indexing locations[i] is getLoc, total with a default element, mirroring
  the in-range accesses of the source.
* The unbounded while-loop terminates because every iteration that does not
  break marks one more location visited; it is embedded with fuel n+1, enough
  for any execution.
-/

/-- Location (itinerary_algorithm.py, class Location).  `open`/`close` are the
Python attribute names; `open` is a Lean keyword so the constructor-parameter
names open_time/close_time are used. -/
structure Location where
  name : String
  open_time : Int
  close_time : Int
  duration : Int
  priority : Option Int
deriving Repr, DecidableEq

instance : Inhabited Location := ⟨⟨"", 0, 0, 0, none⟩⟩

/-- locations[i] -/
def getLoc (locs : List Location) (i : Nat) : Location := locs.getD i default

/-- Python str.lower (ASCII letters, which is all the keyword tests use). -/
def toLowerStr (s : String) : String := ⟨s.data.map Char.toLower⟩

/-- Python `pat in s` substring test. -/
def strContains (s pat : String) : Bool :=
  s.toList.tails.any (fun suf => pat.toList.isPrefixOf suf)

/-- The restaurant-name keyword test used by the auto-detection block of
build_itinerary (lines 51-60). -/
def is_restaurant_name (name : String) : Bool :=
  let nl := toLowerStr name
  strContains nl ("restaurant") || strContains nl ("cafe") ||
  strContains nl ("caf√©") || strContains nl ("bistro") ||
  strContains nl ("eatery") || strContains nl ("food") ||
  strContains nl ("dining")

/-- Auto-detected restaurant_locations (build_itinerary lines 46-62). -/
def autoRestaurants (locs : List Location) (start_idx : Nat) : List Nat :=
  (List.range locs.length).filter
    (fun i => decide (i ≠ start_idx) && is_restaurant_name (getLoc locs i).name)

/-- Arrival at candidate i, clamped up to its opening time
(build_itinerary lines 162-166). -/
def clampedArrival (locs : List Location) (tt : Nat → Nat → Int)
    (current : Nat) (t : Int) (i : Nat) : Int :=
  let arrival := t + tt current i
  if arrival < (getLoc locs i).open_time then (getLoc locs i).open_time else arrival

/-- Cost of candidate i: travel plus waiting (build_itinerary lines 171-175). -/
def travelCost (locs : List Location) (tt : Nat → Nat → Int)
    (current : Nat) (t : Int) (i : Nat) : Int :=
  tt current i + max 0 ((getLoc locs i).open_time - (t + tt current i))

/-- One candidate of the normal greedy selection (build_itinerary lines 158-179).
The accumulator holds the best (index, cost) so far; strict `cost < best_cost`
keeps the first (lowest-index) candidate on ties, as in the source. -/
def stepNext (locs : List Location) (tt : Nat → Nat → Int) (visited : Nat → Bool)
    (start_idx current : Nat) (t : Int)
    (best : Option (Nat × Int)) (i : Nat) : Option (Nat × Int) :=
  if visited i || i == start_idx then best
  else if (getLoc locs i).close_time < clampedArrival locs tt current t i then best
  else
    let cost := travelCost locs tt current t i
    match best with
    | none => some (i, cost)
    | some (_, bc) => if cost < bc then some (i, cost) else best

/-- The normal greedy selection loop (build_itinerary lines 155-179). -/
def selectNext (locs : List Location) (tt : Nat → Nat → Int) (visited : Nat → Bool)
    (start_idx current : Nat) (t : Int) : Option (Nat × Int) :=
  (List.range locs.length).foldl (stepNext locs tt visited start_idx current t) none

/-- Feasibility of candidate i at a selection step: unvisited, not the start,
and open-clamped arrival not past closing (the source skips on
`arrival > close`). -/
def nextFeasible (locs : List Location) (tt : Nat → Nat → Int) (visited : Nat → Bool)
    (start_idx current : Nat) (t : Int) (i : Nat) : Bool :=
  !(visited i) && !(i == start_idx) &&
    decide (clampedArrival locs tt current t i ≤ (getLoc locs i).close_time)

/-- meal_times dict of build_itinerary. -/
structure MealTimes where
  lunch_time : Option Int
  lunch_location : Option Nat
  dinner_time : Option Int
  dinner_location : Option Nat
deriving Repr, DecidableEq

def MealTimes.empty : MealTimes := ⟨none, none, none, none⟩

/-- How a route entry was appended (ghost information recording which branch of
the source produced the entry; the source's route list holds only the index). -/
inductive StopKind
  | start
  | lunch
  | normal
  | hotelReturn
deriving Repr, DecidableEq

/-- A route entry together with its (ghost) scheduled arrival time. -/
structure Stop where
  idx : Nat
  arrival : Int
  kind : StopKind
deriving Repr, DecidableEq

/-- The mutable state of the while-loop of build_itinerary. -/
structure BuildState where
  visited : Nat → Bool
  entries : List Stop
  current : Nat
  current_time : Int
  lunch_taken : Bool
  meal_times : MealTimes

/-- Lunch trigger (build_itinerary lines 69-79), evaluated when lunch has not
been taken and current_time ≤ lunch_end. -/
def shouldTakeLunch (t lunch_start : Int) : Bool :=
  decide (lunch_start ≤ t) || (decide (t < lunch_start) && decide (lunch_start - t ≤ 30))

/-- One candidate of the restaurant-list lunch scan (build_itinerary lines
87-104): cost is travel only; skip if past closing or past the lunch window. -/
def stepLunchRest (locs : List Location) (tt : Nat → Nat → Int) (visited : Nat → Bool)
    (start_idx current : Nat) (t lunch_end : Int)
    (best : Option (Nat × Int)) (i : Nat) : Option (Nat × Int) :=
  if visited i || i == start_idx then best
  else
    let travel := tt current i
    let arrival := t + travel
    let arrival := if arrival < (getLoc locs i).open_time then (getLoc locs i).open_time else arrival
    if arrival > (getLoc locs i).close_time || arrival > lunch_end then best
    else
      let cost := travel
      match best with
      | none => some (i, cost)
      | some (_, bc) => if cost < bc then some (i, cost) else best

/-- One candidate of the any-location lunch scan (build_itinerary lines
107-130): note the source checks the lunch window but never the candidate's
closing time here. -/
def stepLunchAny (locs : List Location) (tt : Nat → Nat → Int) (visited : Nat → Bool)
    (start_idx current : Nat) (t lunch_start lunch_end : Int)
    (best : Option (Nat × Int)) (i : Nat) : Option (Nat × Int) :=
  if visited i || i == start_idx then best
  else
    let travel := tt current i
    let arrival := t + travel
    let arrival := if arrival < (getLoc locs i).open_time then (getLoc locs i).open_time else arrival
    if arrival > lunch_end then best
    else
      let arrival := if arrival < lunch_start then lunch_start else arrival
      if arrival ≤ lunch_end then
        let cost := travel + max 0 (arrival - t) + (getLoc locs i).duration
        match best with
        | none => some (i, cost)
        | some (_, bc) => if cost < bc then some (i, cost) else best
      else best

/-- Lunch-spot choice (build_itinerary lines 83-130): the known-restaurant list
is scanned first; only if it yields nothing is every location considered. -/
def selectLunchSpot (locs : List Location) (tt : Nat → Nat → Int)
    (restaurants : List Nat) (visited : Nat → Bool) (start_idx current : Nat)
    (t lunch_start lunch_end : Int) : Option Nat :=
  match restaurants.foldl (stepLunchRest locs tt visited start_idx current t lunch_end) none with
  | some (i, _) => some i
  | none =>
    ((List.range locs.length).foldl
      (stepLunchAny locs tt visited start_idx current t lunch_start lunch_end) none).map Prod.fst

/-- Insertion of the chosen lunch stop (build_itinerary lines 132-149): arrival
is clamped up to the restaurant's opening time and then up to the lunch-window
start; lunch_time records that arrival; the visit lasts lunch_duration. -/
def lunchInsert (locs : List Location) (tt : Nat → Nat → Int)
    (restaurants : List Nat) (start_idx : Nat)
    (lunch_start lunch_end lunch_duration : Int) (s : BuildState) : Option BuildState :=
  match selectLunchSpot locs tt restaurants s.visited start_idx s.current s.current_time
      lunch_start lunch_end with
  | none => none
  | some b =>
    let travel := tt s.current b
    let arrival := s.current_time + travel
    let arrival := if arrival < (getLoc locs b).open_time then (getLoc locs b).open_time else arrival
    let arrival := if arrival < lunch_start then lunch_start else arrival
    some { visited := fun j => if j = b then true else s.visited j
           entries := s.entries ++ [⟨b, arrival, StopKind.lunch⟩]
           current := b
           current_time := arrival + lunch_duration
           lunch_taken := true
           meal_times := { s.meal_times with
                           lunch_time := some arrival
                           lunch_location := some b } }

/-- Visiting the selected next location (build_itinerary lines 184-193). -/
def visitNext (locs : List Location) (tt : Nat → Nat → Int) (s : BuildState) (i : Nat) :
    BuildState :=
  let arrival := clampedArrival locs tt s.current s.current_time i
  { visited := fun j => if j = i then true else s.visited j
    entries := s.entries ++ [⟨i, arrival, StopKind.normal⟩]
    current := i
    current_time := arrival + (getLoc locs i).duration
    lunch_taken := s.lunch_taken
    meal_times := s.meal_times }

inductive LunchOutcome
  | inserted (s : BuildState)
  | pass (s : BuildState)

/-- The lunch phase at the top of each loop iteration (build_itinerary lines
65-152).  When the trigger fires and no spot is found, lunch is permanently
marked taken (skipped) and the iteration falls through to normal selection. -/
def lunchPhase (locs : List Location) (tt : Nat → Nat → Int)
    (restaurants : List Nat) (start_idx : Nat)
    (lunch_start lunch_end lunch_duration : Int) (s : BuildState) : LunchOutcome :=
  if !s.lunch_taken && decide (s.current_time ≤ lunch_end) &&
      shouldTakeLunch s.current_time lunch_start then
    match lunchInsert locs tt restaurants start_idx lunch_start lunch_end lunch_duration s with
    | some s' => LunchOutcome.inserted s'
    | none => LunchOutcome.pass { s with lunch_taken := true }
  else LunchOutcome.pass s

/-- The while-loop of build_itinerary (lines 64-193), with fuel.  A lunch
insertion re-enters the loop (the source's `continue`); otherwise a normal
selection either visits one location or breaks. -/
def buildLoop (locs : List Location) (tt : Nat → Nat → Int)
    (restaurants : List Nat) (start_idx : Nat)
    (lunch_start lunch_end lunch_duration : Int) : Nat → BuildState → BuildState
  | 0, s => s
  | fuel + 1, s =>
    match lunchPhase locs tt restaurants start_idx lunch_start lunch_end lunch_duration s with
    | LunchOutcome.inserted s' =>
      buildLoop locs tt restaurants start_idx lunch_start lunch_end lunch_duration fuel s'
    | LunchOutcome.pass s' =>
      match selectNext locs tt s'.visited start_idx s'.current s'.current_time with
      | none => s'
      | some (i, _) =>
        buildLoop locs tt restaurants start_idx lunch_start lunch_end lunch_duration fuel
          (visitNext locs tt s' i)

/-- Result of build_itinerary: the route entries (with ghost arrival times and
kinds), the end time, and the meal_times record. -/
structure BuildResult where
  entries : List Stop
  end_time : Int
  meal_times : MealTimes
deriving Repr, DecidableEq

/-- The route as returned by the source: the list of location indices. -/
def BuildResult.route (r : BuildResult) : List Nat := r.entries.map Stop.idx

/-- build_itinerary (itinerary_algorithm.py lines 16-204).  The source's default
arguments are return_to_hotel=true, lunch_window=(720, 900), lunch_duration=60,
restaurant_locations=None (auto-detect). -/
def build_itinerary (locs : List Location) (tt : Nat → Nat → Int)
    (start_idx : Nat) (start_time : Int) (return_to_hotel : Bool)
    (lunch_window : Int × Int) (lunch_duration : Int)
    (restaurant_locations : Option (List Nat)) : BuildResult :=
  let n := locs.length
  let restaurants := match restaurant_locations with
    | some rs => rs
    | none => autoRestaurants locs start_idx
  let init : BuildState :=
    { visited := fun _ => false
      entries := [⟨start_idx, start_time, StopKind.start⟩]
      current := start_idx
      current_time := start_time
      lunch_taken := false
      meal_times := MealTimes.empty }
  let s := buildLoop locs tt restaurants start_idx lunch_window.1 lunch_window.2 lunch_duration
    (n + 1) init
  if return_to_hotel && !(s.current == start_idx) then
    let travel := tt s.current start_idx
    let arrival := s.current_time + travel
    { entries := s.entries ++ [⟨start_idx, arrival, StopKind.hotelReturn⟩]
      end_time := arrival
      meal_times := { s.meal_times with
                      dinner_time := some arrival
                      dinner_location := some start_idx } }
  else
    { entries := s.entries, end_time := s.current_time, meal_times := s.meal_times }

/-!  Meal-policy fragments of the other call sites, and the restaurant finder. -/

/-- Dinner start computation of build_itinerary_api (itinerary/api.py lines
719-725): the raw arrival is current_time plus travel; the code clamps it to
1260 whenever the finish time lies in [1140, 1260) and the raw arrival is below
1260. -/
def api_dinner_start (current_time travel_to_dinner : Int) : Int :=
  let dinner_start := current_time + travel_to_dinner
  if 1140 ≤ current_time ∧ current_time < 1260 ∧ dinner_start < 1260 then 1260
  else dinner_start

/-- Modelled from the spec: the dinner clamp as claim C6 states it — if the
current finish time falls in [19:00, 20:00) = [1140, 1200) and the raw arrival
would be earlier than 19:00, clamp forward to 1140; otherwise use the raw
arrival. -/
def spec_dinner_start (current_time travel_to_dinner : Int) : Int :=
  let raw := current_time + travel_to_dinner
  if 1140 ≤ current_time ∧ current_time < 1200 ∧ raw < 1140 then 1140
  else raw

/-- Dinner time computation of generate_itinerary (itinerary_generator.py lines
283-295), given the restaurant's opening time returned by the finder. -/
def generator_dinner_time (current_time r_open : Int) : Int :=
  if current_time < 1140 then max 1140 r_open else max current_time r_open

/-- Lunch insertion step of generate_itinerary (itinerary_generator.py lines
188-231): when lunch has not yet been added, the trigger is
660 ≤ current_time ≤ 900; the recorded lunch time is
max(current_time, restaurant_open); the stop is inserted only when the hour of
lunch fits before the restaurant closes.  Returns the recorded lunch time. -/
def generate_lunch_step (current_time r_open r_close : Int) : Option Int :=
  if 660 ≤ current_time ∧ current_time ≤ 900 then
    let lunch_time := max current_time r_open
    if lunch_time + 60 ≤ r_close then some lunch_time else none
  else none

/-- A candidate produced by the Nominatim query loop of
find_restaurant_near_location (location_services.py lines 440-517); the
haversine distance filtering happens inside that collaborator loop, so the
candidate carries its computed distance. -/
structure RestaurantCandidate where
  name : String
  address : String
  lat : Rat
  lon : Rat
  distance_m : Rat
deriving Repr, DecidableEq

/-- The dict returned by find_restaurant_near_location. -/
structure RestaurantResult where
  name : String
  address : String
  lat : Rat
  lon : Rat
  open_time : Int
  close_time : Int
  distance_m : Rat
deriving Repr, DecidableEq

/-- `restaurants.sort(key=distance)[0]`: Python's stable sort followed by taking
the head yields the first candidate of minimal distance. -/
def closestCandidate : List RestaurantCandidate → Option RestaurantCandidate
  | [] => none
  | x :: xs => some (xs.foldl (fun b r => if r.distance_m < b.distance_m then r else b) x)

/-- find_restaurant_near_location (location_services.py lines 424-562).  The
HTTP query loop is a collaborator effect: searchOutcome is .error () when an
exception escapes the try block (caught at line 551) and .ok cands when the
loop collected the list `restaurants`; hours models the
get_opening_hours_by_coords collaborator.  Every return statement of the source
returns a dict, embedded as `some`. -/
def find_restaurant_near_location (lat lon : Rat)
    (searchOutcome : Except Unit (List RestaurantCandidate))
    (hours : Rat → Rat → String → Int × Int) : Option RestaurantResult :=
  match searchOutcome with
  | Except.error _ =>
    some { name := "Nearby Restaurant", address := "Restaurant near coordinates",
           lat := lat, lon := lon, open_time := 720, close_time := 1320, distance_m := 0 }
  | Except.ok restaurants =>
    match closestCandidate restaurants with
    | none =>
      some { name := "Nearby Restaurant", address := "Restaurant near coordinates",
             lat := lat + 1/1000, lon := lon + 1/1000,
             open_time := 720, close_time := 1320, distance_m := 100 }
    | some closest =>
      let oc := hours closest.lat closest.lon closest.name
      some { name := closest.name, address := closest.address,
             lat := closest.lat, lon := closest.lon,
             open_time := oc.1, close_time := oc.2, distance_m := closest.distance_m }

/-!  Loop-invariant machinery for buildLoop. -/

lemma lunchPhase_cases (locs : List Location) (tt : Nat → Nat → Int)
    (rs : List Nat) (si : Nat) (ls le ld : Int) (s : BuildState) :
    (∃ s', lunchPhase locs tt rs si ls le ld s = LunchOutcome.inserted s' ∧
      s.lunch_taken = false ∧ lunchInsert locs tt rs si ls le ld s = some s') ∨
    (lunchPhase locs tt rs si ls le ld s = LunchOutcome.pass { s with lunch_taken := true } ∧
      s.lunch_taken = false) ∨
    lunchPhase locs tt rs si ls le ld s = LunchOutcome.pass s := by
  unfold lunchPhase
  by_cases hguard : (!s.lunch_taken && decide (s.current_time ≤ le) &&
      shouldTakeLunch s.current_time ls) = true
  · have hlt : s.lunch_taken = false := by
      simp only [Bool.and_eq_true, Bool.not_eq_true'] at hguard
      exact hguard.1.1
    rw [if_pos hguard]
    cases hins : lunchInsert locs tt rs si ls le ld s with
    | none => exact Or.inr (Or.inl ⟨rfl, hlt⟩)
    | some s' => exact Or.inl ⟨s', rfl, hlt, rfl⟩
  · rw [if_neg hguard]
    exact Or.inr (Or.inr rfl)

lemma buildLoop_succ_inserted (locs : List Location) (tt : Nat → Nat → Int)
    (rs : List Nat) (si : Nat) (ls le ld : Int) (n : Nat) (s s' : BuildState)
    (h : lunchPhase locs tt rs si ls le ld s = LunchOutcome.inserted s') :
    buildLoop locs tt rs si ls le ld (n + 1) s = buildLoop locs tt rs si ls le ld n s' := by
  rw [buildLoop, h]

lemma buildLoop_succ_pass_none (locs : List Location) (tt : Nat → Nat → Int)
    (rs : List Nat) (si : Nat) (ls le ld : Int) (n : Nat) (s s' : BuildState)
    (h : lunchPhase locs tt rs si ls le ld s = LunchOutcome.pass s')
    (h2 : selectNext locs tt s'.visited si s'.current s'.current_time = none) :
    buildLoop locs tt rs si ls le ld (n + 1) s = s' := by
  rw [buildLoop, h]
  dsimp only
  rw [h2]

lemma buildLoop_succ_pass_some (locs : List Location) (tt : Nat → Nat → Int)
    (rs : List Nat) (si : Nat) (ls le ld : Int) (n : Nat) (s s' : BuildState)
    (i : Nat) (c : Int)
    (h : lunchPhase locs tt rs si ls le ld s = LunchOutcome.pass s')
    (h2 : selectNext locs tt s'.visited si s'.current s'.current_time = some (i, c)) :
    buildLoop locs tt rs si ls le ld (n + 1) s =
      buildLoop locs tt rs si ls le ld n (visitNext locs tt s' i) := by
  rw [buildLoop, h]
  dsimp only
  rw [h2]

/-- Any property preserved by lunch insertion, by marking lunch taken, and by
visiting a selected location is an invariant of the whole loop. -/
lemma buildLoop_inv (locs : List Location) (tt : Nat → Nat → Int)
    (rs : List Nat) (si : Nat) (ls le ld : Int) (P : BuildState → Prop)
    (hlunch : ∀ s s', s.lunch_taken = false →
      lunchInsert locs tt rs si ls le ld s = some s' → P s → P s')
    (hmark : ∀ s, P s → P { s with lunch_taken := true })
    (hvisit : ∀ s i c,
      selectNext locs tt s.visited si s.current s.current_time = some (i, c) →
      P s → P (visitNext locs tt s i)) :
    ∀ fuel s, P s → P (buildLoop locs tt rs si ls le ld fuel s) := by
  intro fuel
  induction fuel with
  | zero => intro s hs; exact hs
  | succ n ih =>
    intro s hs
    rcases lunchPhase_cases locs tt rs si ls le ld s with
      ⟨s', hp, hlt, hins⟩ | ⟨hp, hlt⟩ | hp
    · rw [buildLoop_succ_inserted locs tt rs si ls le ld n s s' hp]
      exact ih s' (hlunch s s' hlt hins hs)
    · have hs' : P { s with lunch_taken := true } := hmark s hs
      cases h2 : selectNext locs tt s.visited si s.current s.current_time with
      | none => rw [buildLoop_succ_pass_none locs tt rs si ls le ld n s _ hp h2]; exact hs'
      | some p =>
        rw [buildLoop_succ_pass_some locs tt rs si ls le ld n s _ p.1 p.2 hp (by rw [h2])]
        exact ih _ (hvisit { s with lunch_taken := true } p.1 p.2 h2 hs')
    · cases h2 : selectNext locs tt s.visited si s.current s.current_time with
      | none => rw [buildLoop_succ_pass_none locs tt rs si ls le ld n s s hp h2]; exact hs
      | some p =>
        rw [buildLoop_succ_pass_some locs tt rs si ls le ld n s s p.1 p.2 hp (by rw [h2])]
        exact ih _ (hvisit s p.1 p.2 h2 hs)

/-!  Decomposition of build_itinerary into loop result plus hotel-return step. -/

def initState (si : Nat) (st : Int) : BuildState :=
  { visited := fun _ => false
    entries := [⟨si, st, StopKind.start⟩]
    current := si
    current_time := st
    lunch_taken := false
    meal_times := MealTimes.empty }

def restaurantsOf (locs : List Location) (si : Nat) (rl : Option (List Nat)) : List Nat :=
  match rl with
  | some rs => rs
  | none => autoRestaurants locs si

def finalState (locs : List Location) (tt : Nat → Nat → Int) (si : Nat) (st : Int)
    (lw : Int × Int) (ld : Int) (rl : Option (List Nat)) : BuildState :=
  buildLoop locs tt (restaurantsOf locs si rl) si lw.1 lw.2 ld (locs.length + 1)
    (initState si st)

lemma build_itinerary_eq (locs : List Location) (tt : Nat → Nat → Int) (si : Nat)
    (st : Int) (rth : Bool) (lw : Int × Int) (ld : Int) (rl : Option (List Nat)) :
    build_itinerary locs tt si st rth lw ld rl =
      (let s := finalState locs tt si st lw ld rl
      if rth && !(s.current == si) then
        { entries := s.entries ++ [⟨si, s.current_time + tt s.current si, StopKind.hotelReturn⟩]
          end_time := s.current_time + tt s.current si
          meal_times := { s.meal_times with
                          dinner_time := some (s.current_time + tt s.current si)
                          dinner_location := some si } }
      else { entries := s.entries, end_time := s.current_time, meal_times := s.meal_times }) :=
  rfl

lemma finalState_inv (locs : List Location) (tt : Nat → Nat → Int) (si : Nat) (st : Int)
    (lw : Int × Int) (ld : Int) (rl : Option (List Nat)) (P : BuildState → Prop)
    (hlunch : ∀ s s', s.lunch_taken = false →
      lunchInsert locs tt (restaurantsOf locs si rl) si lw.1 lw.2 ld s = some s' → P s → P s')
    (hmark : ∀ s, P s → P { s with lunch_taken := true })
    (hvisit : ∀ s i c,
      selectNext locs tt s.visited si s.current s.current_time = some (i, c) →
      P s → P (visitNext locs tt s i))
    (hinit : P (initState si st)) :
    P (finalState locs tt si st lw ld rl) :=
  buildLoop_inv locs tt (restaurantsOf locs si rl) si lw.1 lw.2 ld P hlunch hmark hvisit
    (locs.length + 1) (initState si st) hinit

lemma le_clamp (ls x : Int) : ls ≤ if x < ls then ls else x := by
  split <;> omega

/-!  Claim C5: recorded lunch time never precedes the lunch-window start. -/

lemma lunchInsert_lunch_time_ge (locs : List Location) (tt : Nat → Nat → Int)
    (rs : List Nat) (si : Nat) (ls le ld : Int) (s s' : BuildState)
    (hins : lunchInsert locs tt rs si ls le ld s = some s') :
    ∀ v, s'.meal_times.lunch_time = some v → ls ≤ v := by
  unfold lunchInsert at hins
  cases hsel : selectLunchSpot locs tt rs s.visited si s.current s.current_time ls le with
  | none => rw [hsel] at hins; cases hins
  | some b =>
    rw [hsel] at hins
    injection hins with h
    subst h
    intro v hv
    simp only [Option.some.injEq] at hv
    rw [← hv]
    exact le_clamp ls _

lemma lunch_time_ge_invariant (locs : List Location) (tt : Nat → Nat → Int) (si : Nat)
    (st : Int) (lw : Int × Int) (ld : Int) (rl : Option (List Nat)) :
    ∀ v, (finalState locs tt si st lw ld rl).meal_times.lunch_time = some v → lw.1 ≤ v := by
  refine finalState_inv locs tt si st lw ld rl
    (fun s => ∀ v, s.meal_times.lunch_time = some v → lw.1 ≤ v) ?_ ?_ ?_ ?_
  · intro s s' _ hins _
    exact lunchInsert_lunch_time_ge locs tt _ si lw.1 lw.2 ld s s' hins
  · intro s hs; exact hs
  · intro s i c _ hs; exact hs
  · intro v hv; cases hv

/-- Claim C5 (amended): whenever build_itinerary records a lunch stop, the
recorded lunch_time is at least the lunch-window start (720 under the default
window), because the restaurant arrival is clamped up to the window start.  (The
generate_itinerary call site does not have this clamp; see the
counterexample theorem.) -/
theorem lunch_time_at_least_window_start (locs : List Location) (tt : Nat → Nat → Int)
    (si : Nat) (st : Int) (rth : Bool) (lw : Int × Int) (ld : Int)
    (rl : Option (List Nat)) (v : Int)
    (h : (build_itinerary locs tt si st rth lw ld rl).meal_times.lunch_time = some v) :
    lw.1 ≤ v := by
  rw [build_itinerary_eq] at h
  simp only at h
  by_cases hc : (rth && !((finalState locs tt si st lw ld rl).current == si)) = true
  · rw [if_pos hc] at h
    exact lunch_time_ge_invariant locs tt si st lw ld rl v h
  · rw [if_neg hc] at h
    exact lunch_time_ge_invariant locs tt si st lw ld rl v h

/-- Claim C5 (counterexample to the claim as stated): the lunch step of
generate_itinerary records max(current_time, restaurant_open), so with the
trigger firing at 11:00 (660) and a restaurant already open at 9:00 (540, the
collaborator's default attraction hours), the recorded lunch time is 660,
earlier than the 720 window start. -/
theorem generator_lunch_before_window :
    generate_lunch_step 660 540 1320 = some 660 ∧ (660 : Int) < 720 := by
  constructor
  · rfl
  · decide

lemma clamp_ge (x y : Int) : x ≤ if x < y then y else x := by
  split <;> omega

/-- Characterization of a successful lunch insertion. -/
lemma lunchInsert_some (locs : List Location) (tt : Nat → Nat → Int)
    (rs : List Nat) (si : Nat) (ls le ld : Int) (s s' : BuildState)
    (hins : lunchInsert locs tt rs si ls le ld s = some s') :
    ∃ b arr,
      selectLunchSpot locs tt rs s.visited si s.current s.current_time ls le = some b ∧
      s'.entries = s.entries ++ [⟨b, arr, StopKind.lunch⟩] ∧
      s'.visited = (fun j => if j = b then true else s.visited j) ∧
      s'.current = b ∧ s'.current_time = arr + ld ∧ s'.lunch_taken = true ∧
      s'.meal_times = { s.meal_times with
                        lunch_time := some arr
                        lunch_location := some b } ∧
      s.current_time + tt s.current b ≤ arr := by
  unfold lunchInsert at hins
  cases hsel : selectLunchSpot locs tt rs s.visited si s.current s.current_time ls le with
  | none => rw [hsel] at hins; cases hins
  | some b =>
    rw [hsel] at hins
    injection hins with h
    subst h
    refine ⟨b, _, rfl, rfl, rfl, rfl, rfl, rfl, rfl, ?_⟩
    calc s.current_time + tt s.current b ≤
        (if s.current_time + tt s.current b < (getLoc locs b).open_time
          then (getLoc locs b).open_time else s.current_time + tt s.current b) :=
          clamp_ge _ _
      _ ≤ _ := clamp_ge _ _

/-!  Claim C4: lunch and the hotel-return dinner stop are inserted at most once. -/

def isLunchStop (e : Stop) : Bool := e.kind == StopKind.lunch

def isHotelStop (e : Stop) : Bool := e.kind == StopKind.hotelReturn

lemma countP_snoc_true (p : Stop → Bool) (l : List Stop) (e : Stop) (he : p e = true) :
    (l ++ [e]).countP p = l.countP p + 1 := by
  simp [List.countP_append, List.countP_cons, he]

lemma countP_snoc_false (p : Stop → Bool) (l : List Stop) (e : Stop) (he : p e = false) :
    (l ++ [e]).countP p = l.countP p := by
  simp [List.countP_append, List.countP_cons, he]

lemma meal_counts_invariant (locs : List Location) (tt : Nat → Nat → Int) (si : Nat)
    (st : Int) (lw : Int × Int) (ld : Int) (rl : Option (List Nat)) :
    ((finalState locs tt si st lw ld rl).lunch_taken = false →
      (finalState locs tt si st lw ld rl).entries.countP isLunchStop = 0) ∧
    (finalState locs tt si st lw ld rl).entries.countP isLunchStop ≤ 1 ∧
    (finalState locs tt si st lw ld rl).entries.countP isHotelStop = 0 := by
  refine finalState_inv locs tt si st lw ld rl
    (fun s => (s.lunch_taken = false → s.entries.countP isLunchStop = 0) ∧
      s.entries.countP isLunchStop ≤ 1 ∧ s.entries.countP isHotelStop = 0) ?_ ?_ ?_ ?_
  · intro s s' hlt hins hP
    obtain ⟨b, arr, _, hent, _, _, _, hltaken, _, _⟩ :=
      lunchInsert_some locs tt _ si lw.1 lw.2 ld s s' hins
    have h0 : s.entries.countP isLunchStop = 0 := hP.1 hlt
    have hH := hP.2.2
    rw [hent, countP_snoc_true isLunchStop s.entries ⟨b, arr, StopKind.lunch⟩ rfl,
      countP_snoc_false isHotelStop s.entries ⟨b, arr, StopKind.lunch⟩ rfl, h0, hH]
    refine ⟨?_, le_refl _, rfl⟩
    intro hfalse
    rw [hltaken] at hfalse
    cases hfalse
  · intro s hP
    refine ⟨?_, hP.2⟩
    intro hfalse
    simp at hfalse
  · intro s i c _ hP
    have h1 := hP.2.1
    have h2 := hP.2.2
    have hL0 := hP.1
    unfold visitNext
    dsimp only
    rw [countP_snoc_false isLunchStop s.entries
        ⟨i, clampedArrival locs tt s.current s.current_time i, StopKind.normal⟩ rfl,
      countP_snoc_false isHotelStop s.entries
        ⟨i, clampedArrival locs tt s.current s.current_time i, StopKind.normal⟩ rfl]
    exact ⟨hL0, h1, h2⟩
  · refine ⟨fun _ => ?_, ?_, ?_⟩ <;>
      simp [initState, List.countP_cons, isLunchStop, isHotelStop]

/-- Claim C6 (code_bug evidence): with the last stop finishing at 1150 (19:10,
inside the claim's [19:00, 20:00) window) and a 5-minute ride to the
restaurant, the api.py code sets the dinner start to 1260 (21:00) — its
window is [1140, 1260) with clamp target 1260, contradicting its own
comments (aim for 7 PM) — while the documented rule keeps the raw arrival
1155.  The generate_itinerary variant also diverges: it clamps a finish of
1100 (18:20, outside the claimed window) forward to 1140. -/
theorem api_dinner_clamp_diverges :
    api_dinner_start 1150 5 = 1260 ∧ spec_dinner_start 1150 5 = 1155 ∧
    generator_dinner_time 1100 720 = 1140 := by
  refine ⟨?_, ?_, ?_⟩ <;> decide

/-- Claim C7: find_restaurant_near_location returns a result on every execution
path — for an exception escaping the search (the outer except branch), for an
empty candidate list, and for a non-empty one — and in the two fallback cases
the synthetic restaurant has the default window 720–1320 (12:00–22:00) and the
name Nearby Restaurant. -/
theorem restaurant_finder_always_returns (lat lon : Rat)
    (hours : Rat → Rat → String → Int × Int) (cands : List RestaurantCandidate) :
    (find_restaurant_near_location lat lon (Except.error ()) hours).isSome = true ∧
    (find_restaurant_near_location lat lon (Except.ok cands) hours).isSome = true ∧
    (find_restaurant_near_location lat lon (Except.error ()) hours).map
      (fun r => (r.name, r.open_time, r.close_time)) =
      some ("Nearby Restaurant", 720, 1320) ∧
    (find_restaurant_near_location lat lon (Except.ok []) hours).map
      (fun r => (r.name, r.open_time, r.close_time)) =
      some ("Nearby Restaurant", 720, 1320) := by
  refine ⟨rfl, ?_, rfl, rfl⟩
  cases cands with
  | nil => rfl
  | cons x xs => rfl

/-!  Specification of the greedy-selection fold (build_itinerary lines 155-179). -/

def NextAccNone (locs : List Location) (tt : Nat → Nat → Int) (visited : Nat → Bool)
    (start_idx current : Nat) (t : Int) (seen : List Nat) : Prop :=
  ∀ j ∈ seen, nextFeasible locs tt visited start_idx current t j = false

def NextAccSome (locs : List Location) (tt : Nat → Nat → Int) (visited : Nat → Bool)
    (start_idx current : Nat) (t : Int) (seen : List Nat) (i : Nat) (c : Int) : Prop :=
  i ∈ seen ∧ nextFeasible locs tt visited start_idx current t i = true ∧
  c = travelCost locs tt current t i ∧
  ∀ j ∈ seen, nextFeasible locs tt visited start_idx current t j = true →
    c ≤ travelCost locs tt current t j ∧ (travelCost locs tt current t j = c → i ≤ j)

def NextAcc (locs : List Location) (tt : Nat → Nat → Int) (visited : Nat → Bool)
    (start_idx current : Nat) (t : Int) (seen : List Nat) :
    Option (Nat × Int) → Prop
  | none => NextAccNone locs tt visited start_idx current t seen
  | some (i, c) => NextAccSome locs tt visited start_idx current t seen i c

lemma nextFeasible_of_guards (locs : List Location) (tt : Nat → Nat → Int)
    (visited : Nat → Bool) (start_idx current : Nat) (t : Int) (j : Nat)
    (h1 : (visited j || j == start_idx) = false)
    (h2 : ¬((getLoc locs j).close_time < clampedArrival locs tt current t j)) :
    nextFeasible locs tt visited start_idx current t j = true := by
  rw [Bool.or_eq_false_iff] at h1
  simp [nextFeasible, h1.1, h1.2, not_lt.mp h2]

lemma nextFeasible_false_of_skip (locs : List Location) (tt : Nat → Nat → Int)
    (visited : Nat → Bool) (start_idx current : Nat) (t : Int) (j : Nat)
    (h1 : (visited j || j == start_idx) = true) :
    nextFeasible locs tt visited start_idx current t j = false := by
  rcases Bool.or_eq_true_iff.mp h1 with h | h <;> simp [nextFeasible, h]

lemma nextFeasible_false_of_late (locs : List Location) (tt : Nat → Nat → Int)
    (visited : Nat → Bool) (start_idx current : Nat) (t : Int) (j : Nat)
    (h2 : (getLoc locs j).close_time < clampedArrival locs tt current t j) :
    nextFeasible locs tt visited start_idx current t j = false := by
  simp [nextFeasible, not_le.mpr h2]

lemma mem_snoc_self (seen : List Nat) (j : Nat) : j ∈ seen ++ [j] :=
  List.mem_append_right _ (List.mem_singleton.mpr rfl)

lemma nextAcc_skip (locs : List Location) (tt : Nat → Nat → Int)
    (visited : Nat → Bool) (start_idx current : Nat) (t : Int)
    (seen : List Nat) (acc : Option (Nat × Int)) (j : Nat)
    (hacc : NextAcc locs tt visited start_idx current t seen acc)
    (hjf : nextFeasible locs tt visited start_idx current t j = false) :
    NextAcc locs tt visited start_idx current t (seen ++ [j]) acc := by
  cases acc with
  | none =>
    intro k hk
    rcases List.mem_append.mp hk with hk | hk
    · exact hacc k hk
    · rw [List.mem_singleton.mp hk]; exact hjf
  | some p =>
    obtain ⟨i, c⟩ := p
    obtain ⟨hmem, hfeas, hcost, hmin⟩ := hacc
    refine ⟨List.mem_append_left _ hmem, hfeas, hcost, ?_⟩
    intro k hk hkf
    rcases List.mem_append.mp hk with hk | hk
    · exact hmin k hk hkf
    · rw [List.mem_singleton.mp hk] at hkf; rw [hjf] at hkf; cases hkf

lemma nextAcc_step (locs : List Location) (tt : Nat → Nat → Int)
    (visited : Nat → Bool) (start_idx current : Nat) (t : Int)
    (seen : List Nat) (acc : Option (Nat × Int)) (j : Nat)
    (hacc : NextAcc locs tt visited start_idx current t seen acc)
    (hlt : ∀ a ∈ seen, a < j) :
    NextAcc locs tt visited start_idx current t (seen ++ [j])
      (stepNext locs tt visited start_idx current t acc j) := by
  unfold stepNext
  by_cases h1 : (visited j || j == start_idx) = true
  · rw [if_pos h1]
    exact nextAcc_skip locs tt visited start_idx current t seen acc j hacc
      (nextFeasible_false_of_skip locs tt visited start_idx current t j h1)
  · rw [if_neg h1]
    have h1' : (visited j || j == start_idx) = false := Bool.eq_false_iff.mpr h1
    by_cases h2 : (getLoc locs j).close_time < clampedArrival locs tt current t j
    · rw [if_pos h2]
      exact nextAcc_skip locs tt visited start_idx current t seen acc j hacc
        (nextFeasible_false_of_late locs tt visited start_idx current t j h2)
    · rw [if_neg h2]
      have hjf := nextFeasible_of_guards locs tt visited start_idx current t j h1' h2
      cases acc with
      | none =>
        refine ⟨mem_snoc_self seen j, hjf, rfl, ?_⟩
        intro k hk hkf
        rcases List.mem_append.mp hk with hk | hk
        · rw [hacc k hk] at hkf; cases hkf
        · rw [List.mem_singleton.mp hk]
          exact ⟨le_refl _, fun _ => le_refl _⟩
      | some p =>
        obtain ⟨i, bc⟩ := p
        obtain ⟨hmem, hfeas, hcost, hmin⟩ := hacc
        dsimp only
        by_cases h3 : travelCost locs tt current t j < bc
        · rw [if_pos h3]
          refine ⟨mem_snoc_self seen j, hjf, rfl, ?_⟩
          intro k hk hkf
          rcases List.mem_append.mp hk with hk | hk
          · have hb := hmin k hk hkf
            refine ⟨le_trans (le_of_lt h3) hb.1, ?_⟩
            intro he
            exfalso
            have := lt_of_lt_of_le h3 hb.1
            omega
          · rw [List.mem_singleton.mp hk]
            exact ⟨le_refl _, fun _ => le_refl _⟩
        · rw [if_neg h3]
          refine ⟨List.mem_append_left _ hmem, hfeas, hcost, ?_⟩
          intro k hk hkf
          rcases List.mem_append.mp hk with hk | hk
          · exact hmin k hk hkf
          · rw [List.mem_singleton.mp hk]
            refine ⟨by omega, fun _ => le_of_lt (hlt i hmem)⟩

lemma nextAcc_foldl (locs : List Location) (tt : Nat → Nat → Int)
    (visited : Nat → Bool) (start_idx current : Nat) (t : Int) :
    ∀ (l seen : List Nat) (acc : Option (Nat × Int)),
      NextAcc locs tt visited start_idx current t seen acc →
      (∀ a ∈ seen, ∀ b ∈ l, a < b) → l.Pairwise (· < ·) →
      NextAcc locs tt visited start_idx current t (seen ++ l)
        (l.foldl (stepNext locs tt visited start_idx current t) acc) := by
  intro l
  induction l with
  | nil =>
    intro seen acc hacc _ _
    rw [List.append_nil]
    exact hacc
  | cons j l ih =>
    intro seen acc hacc hsep hpair
    rw [List.foldl_cons]
    have hstep := nextAcc_step locs tt visited start_idx current t seen acc j hacc
      (fun a ha => hsep a ha j (List.mem_cons_self j l))
    have hsep' : ∀ a ∈ seen ++ [j], ∀ b ∈ l, a < b := by
      intro a ha b hb
      rcases List.mem_append.mp ha with ha | ha
      · exact hsep a ha b (List.mem_cons_of_mem j hb)
      · rw [List.mem_singleton.mp ha]
        exact (List.pairwise_cons.mp hpair).1 b hb
    have := ih (seen ++ [j]) (stepNext locs tt visited start_idx current t acc j)
      hstep hsep' (List.pairwise_cons.mp hpair).2
    rwa [List.append_assoc, List.singleton_append] at this

lemma selectNext_acc (locs : List Location) (tt : Nat → Nat → Int)
    (visited : Nat → Bool) (start_idx current : Nat) (t : Int) :
    NextAcc locs tt visited start_idx current t (List.range locs.length)
      (selectNext locs tt visited start_idx current t) := by
  have := nextAcc_foldl locs tt visited start_idx current t (List.range locs.length) [] none
    (by intro j hj; cases hj) (by intro a ha; cases ha) (List.pairwise_lt_range _)
  rwa [List.nil_append] at this

lemma selectNext_some_spec (locs : List Location) (tt : Nat → Nat → Int)
    (visited : Nat → Bool) (start_idx current : Nat) (t : Int) (i : Nat) (c : Int)
    (h : selectNext locs tt visited start_idx current t = some (i, c)) :
    i < locs.length ∧ nextFeasible locs tt visited start_idx current t i = true ∧
    c = travelCost locs tt current t i ∧
    ∀ j, j < locs.length → nextFeasible locs tt visited start_idx current t j = true →
      c ≤ travelCost locs tt current t j ∧ (travelCost locs tt current t j = c → i ≤ j) := by
  have hacc := selectNext_acc locs tt visited start_idx current t
  rw [h] at hacc
  obtain ⟨hmem, hfeas, hcost, hmin⟩ := hacc
  exact ⟨List.mem_range.mp hmem, hfeas, hcost,
    fun j hj hjf => hmin j (List.mem_range.mpr hj) hjf⟩

lemma selectNext_none_spec (locs : List Location) (tt : Nat → Nat → Int)
    (visited : Nat → Bool) (start_idx current : Nat) (t : Int)
    (h : selectNext locs tt visited start_idx current t = none) :
    ∀ j, j < locs.length → nextFeasible locs tt visited start_idx current t j = false := by
  have hacc := selectNext_acc locs tt visited start_idx current t
  rw [h] at hacc
  exact fun j hj => hacc j (List.mem_range.mpr hj)

lemma nextFeasible_destruct (locs : List Location) (tt : Nat → Nat → Int)
    (visited : Nat → Bool) (start_idx current : Nat) (t : Int) (i : Nat)
    (h : nextFeasible locs tt visited start_idx current t i = true) :
    visited i = false ∧ i ≠ start_idx ∧
    clampedArrival locs tt current t i ≤ (getLoc locs i).close_time := by
  simp only [nextFeasible, Bool.and_eq_true, Bool.not_eq_true', beq_eq_false_iff_ne,
    decide_eq_true_eq] at h
  exact ⟨h.1.1, h.1.2, h.2⟩

/-- Claim C2: whenever the greedy selection of build_itinerary chooses a next
location, that location is feasible and its cost travel + waiting is at most
the cost of every other feasible unvisited candidate at that step, and among
equal-cost feasible candidates the chosen index is the lowest.  Every greedy
step of buildLoop is such a selectNext call. -/
theorem greedy_choice_minimizes_cost (locs : List Location) (tt : Nat → Nat → Int)
    (visited : Nat → Bool) (start_idx current : Nat) (t : Int) (i : Nat) (c : Int)
    (h : selectNext locs tt visited start_idx current t = some (i, c)) :
    nextFeasible locs tt visited start_idx current t i = true ∧
    ∀ j, j < locs.length → nextFeasible locs tt visited start_idx current t j = true →
      travelCost locs tt current t i ≤ travelCost locs tt current t j ∧
      (travelCost locs tt current t j = travelCost locs tt current t i → i ≤ j) := by
  obtain ⟨_, hfeas, hcost, hmin⟩ :=
    selectNext_some_spec locs tt visited start_idx current t i c h
  refine ⟨hfeas, ?_⟩
  intro j hj hjf
  have := hmin j hj hjf
  rw [hcost] at this
  exact this

/-!  Claim C1: feasibility of scheduled stops. -/

lemma normal_arrivals_invariant (locs : List Location) (tt : Nat → Nat → Int) (si : Nat)
    (st : Int) (lw : Int × Int) (ld : Int) (rl : Option (List Nat)) :
    ∀ e ∈ (finalState locs tt si st lw ld rl).entries, e.kind = StopKind.normal →
      e.arrival ≤ (getLoc locs e.idx).close_time := by
  refine finalState_inv locs tt si st lw ld rl
    (fun s => ∀ e ∈ s.entries, e.kind = StopKind.normal →
      e.arrival ≤ (getLoc locs e.idx).close_time) ?_ ?_ ?_ ?_
  · intro s s' _ hins hP
    obtain ⟨b, arr, _, hent, _, _, _, _, _, _⟩ :=
      lunchInsert_some locs tt _ si lw.1 lw.2 ld s s' hins
    rw [hent]
    intro e he hk
    rcases List.mem_append.mp he with he | he
    · exact hP e he hk
    · rw [List.mem_singleton.mp he] at hk; cases hk
  · intro s hP
    exact hP
  · intro s i c hsel hP
    unfold visitNext
    dsimp only
    intro e he hk
    rcases List.mem_append.mp he with he | he
    · exact hP e he hk
    · rw [List.mem_singleton.mp he]
      obtain ⟨_, hfeas, _, _⟩ :=
        selectNext_some_spec locs tt s.visited si s.current s.current_time i c hsel
      exact (nextFeasible_destruct locs tt s.visited si s.current s.current_time i hfeas).2.2
  · intro e he hk
    rw [List.mem_singleton.mp he] at hk
    cases hk

/-- Claim C1 (amended): every stop appended by the normal greedy selection has
open-clamped arrival at most (not strictly below) its location's close time: a
candidate is skipped exactly when its clamped arrival exceeds close, so arrival
equal to close is still scheduled. -/
theorem normal_stops_arrive_by_close (locs : List Location) (tt : Nat → Nat → Int)
    (si : Nat) (st : Int) (rth : Bool) (lw : Int × Int) (ld : Int)
    (rl : Option (List Nat)) (e : Stop)
    (he : e ∈ (build_itinerary locs tt si st rth lw ld rl).entries)
    (hk : e.kind = StopKind.normal) :
    e.arrival ≤ (getLoc locs e.idx).close_time := by
  rw [build_itinerary_eq] at he
  simp only at he
  by_cases hc : (rth && !((finalState locs tt si st lw ld rl).current == si)) = true
  · rw [if_pos hc] at he
    simp only at he
    rcases List.mem_append.mp he with he | he
    · exact normal_arrivals_invariant locs tt si st lw ld rl e he hk
    · rw [List.mem_singleton.mp he] at hk; cases hk
  · rw [if_neg hc] at he
    exact normal_arrivals_invariant locs tt si st lw ld rl e he hk

/-- Concrete fixture: a start hotel and one attraction reached exactly at its
closing minute (travel 60, close 60). -/
def locsB : List Location := [⟨"Hotel", 0, 1440, 0, none⟩, ⟨"Museum", 0, 60, 10, none⟩]

def ttB : Nat → Nat → Int := fun _ _ => 60

/-- Claim C1 (counterexample to the claim as stated): starting at minute 0 with
travel time 60 to a location closing at 60, the open-clamped arrival equals the
close time and the stop is still scheduled, so strictly-less-than-close fails
and the skip condition is arrival > close, not arrival ≥ close. -/
theorem stop_scheduled_at_closing_time :
    (⟨1, 60, StopKind.normal⟩ : Stop) ∈
      (build_itinerary locsB ttB 0 0 true (720, 900) 60 none).entries ∧
    (getLoc locsB 1).close_time = 60 := by
  refine ⟨?_, rfl⟩
  decide

/-- Witness for the amended claim C1 at a concrete input. -/
theorem normal_stops_arrive_by_close_witness :
    (⟨1, 60, StopKind.normal⟩ : Stop) ∈
      (build_itinerary locsB ttB 0 0 true (720, 900) 60 none).entries ∧
    (Stop.mk 1 60 StopKind.normal).arrival ≤ (getLoc locsB 1).close_time :=
  ⟨by decide, normal_stops_arrive_by_close locsB ttB 0 0 true (720, 900) 60 none
    ⟨1, 60, StopKind.normal⟩ (by decide) rfl⟩

/-!  Claim C3: the arrival-time trace is non-decreasing. -/

lemma chain_arrivals_snoc (l : List Stop) (e : Stop)
    (hc : List.Chain' (· ≤ ·) (l.map Stop.arrival))
    (hl : ∀ a ∈ (l.map Stop.arrival).getLast?, a ≤ e.arrival) :
    List.Chain' (· ≤ ·) ((l ++ [e]).map Stop.arrival) ∧
    ((l ++ [e]).map Stop.arrival).getLast? = some e.arrival := by
  rw [List.map_append]
  simp only [List.map_cons, List.map_nil]
  constructor
  · rw [List.chain'_append]
    refine ⟨hc, List.chain'_singleton _, ?_⟩
    intro x hx y hy
    have hy' : e.arrival = y := by simpa using hy
    rw [← hy']
    exact hl x hx
  · exact List.getLast?_concat _

lemma getLoc_mem (locs : List Location) (i : Nat) (h : i < locs.length) :
    getLoc locs i ∈ locs := by
  unfold getLoc
  rw [List.getD_eq_getElem locs default h]
  exact List.getElem_mem h

lemma clampedArrival_ge (locs : List Location) (tt : Nat → Nat → Int)
    (current : Nat) (t : Int) (i : Nat) :
    t + tt current i ≤ clampedArrival locs tt current t i :=
  clamp_ge _ _

lemma mono_invariant (locs : List Location) (tt : Nat → Nat → Int) (si : Nat)
    (st : Int) (lw : Int × Int) (ld : Int) (rl : Option (List Nat))
    (htt : ∀ i j, 0 ≤ tt i j) (hdur : ∀ l ∈ locs, 0 ≤ l.duration) (hld : 0 ≤ ld) :
    List.Chain' (· ≤ ·) ((finalState locs tt si st lw ld rl).entries.map Stop.arrival) ∧
    ∀ a ∈ ((finalState locs tt si st lw ld rl).entries.map Stop.arrival).getLast?,
      a ≤ (finalState locs tt si st lw ld rl).current_time := by
  refine finalState_inv locs tt si st lw ld rl
    (fun s => List.Chain' (· ≤ ·) (s.entries.map Stop.arrival) ∧
      ∀ a ∈ (s.entries.map Stop.arrival).getLast?, a ≤ s.current_time) ?_ ?_ ?_ ?_
  · intro s s' _ hins hP
    obtain ⟨b, arr, _, hent, _, _, hct, _, _, harr⟩ :=
      lunchInsert_some locs tt _ si lw.1 lw.2 ld s s' hins
    have hlast : ∀ a ∈ (s.entries.map Stop.arrival).getLast?,
        a ≤ (Stop.mk b arr StopKind.lunch).arrival := by
      intro a ha
      have h1 := hP.2 a ha
      have h2 := htt s.current b
      dsimp only
      omega
    have hsnoc := chain_arrivals_snoc s.entries ⟨b, arr, StopKind.lunch⟩ hP.1 hlast
    constructor
    · rw [hent]; exact hsnoc.1
    · rw [hent, hct]
      intro a ha
      rw [hsnoc.2] at ha
      have ha' : arr = a := by simpa using ha
      omega
  · intro s hP; exact hP
  · intro s i c hsel hP
    have hin := selectNext_some_spec locs tt s.visited si s.current s.current_time i c hsel
    have hdi : 0 ≤ (getLoc locs i).duration := hdur _ (getLoc_mem locs i hin.1)
    have harr : s.current_time ≤ clampedArrival locs tt s.current s.current_time i := by
      have h1 := htt s.current i
      have h2 := clampedArrival_ge locs tt s.current s.current_time i
      omega
    have hlast : ∀ a ∈ (s.entries.map Stop.arrival).getLast?,
        a ≤ (Stop.mk i (clampedArrival locs tt s.current s.current_time i)
          StopKind.normal).arrival := by
      intro a ha
      have h1 := hP.2 a ha
      dsimp only
      omega
    have hsnoc := chain_arrivals_snoc s.entries
      ⟨i, clampedArrival locs tt s.current s.current_time i, StopKind.normal⟩ hP.1 hlast
    unfold visitNext
    dsimp only
    refine ⟨hsnoc.1, ?_⟩
    intro a ha
    rw [hsnoc.2] at ha
    have ha' : clampedArrival locs tt s.current s.current_time i = a := by simpa using ha
    omega
  · constructor
    · exact List.chain'_singleton _
    · intro a ha
      have ha' : st = a := by simpa [initState] using ha
      dsimp [initState]
      omega

/-- Claim C3: for every call of build_itinerary with a nonnegative travel-time
matrix (and data-model-conformant inputs: nonnegative visit durations and a
nonnegative lunch duration), the sequence of scheduled arrival times over the
route — start stop, lunch stop, normal stops and the final hotel return — is
non-decreasing. -/
theorem arrival_times_monotone (locs : List Location) (tt : Nat → Nat → Int)
    (si : Nat) (st : Int) (rth : Bool) (lw : Int × Int) (ld : Int)
    (rl : Option (List Nat))
    (htt : ∀ i j, 0 ≤ tt i j) (hdur : ∀ l ∈ locs, 0 ≤ l.duration) (hld : 0 ≤ ld) :
    List.Chain' (· ≤ ·)
      ((build_itinerary locs tt si st rth lw ld rl).entries.map Stop.arrival) := by
  obtain ⟨hchain, hlast⟩ := mono_invariant locs tt si st lw ld rl htt hdur hld
  rw [build_itinerary_eq]
  simp only
  by_cases hc : (rth && !((finalState locs tt si st lw ld rl).current == si)) = true
  · rw [if_pos hc]
    refine (chain_arrivals_snoc _ _ hchain ?_).1
    intro a ha
    have h1 := hlast a ha
    have h2 := htt (finalState locs tt si st lw ld rl).current si
    dsimp only
    omega
  · rw [if_neg hc]
    exact hchain

/-- Concrete fixture: a hotel, an open-all-day attraction and a quick lunch
candidate, everything 10 minutes apart. -/
def locsA : List Location :=
  [⟨"Hotel", 0, 1440, 0, none⟩, ⟨"Museum", 0, 1440, 30, none⟩]

def ttA : Nat → Nat → Int := fun _ _ => 10

/-- Witness for claim C3 at a concrete input with a nonnegative matrix. -/
theorem arrival_times_monotone_witness :
    (∀ i j : Nat, (0 : Int) ≤ ttA i j) ∧
    List.Chain' (· ≤ ·)
      ((build_itinerary locsA ttA 0 540 true (720, 900) 60 none).entries.map Stop.arrival) :=
  ⟨fun _ _ => by norm_num [ttA],
    arrival_times_monotone locsA ttA 0 540 true (720, 900) 60 none
      (fun _ _ => by norm_num [ttA]) (by decide) (by norm_num)⟩

/-!  Soundness of the lunch-spot folds: any selected index is unvisited and is
not the start index. -/

lemma foldl_opt_inv (P : Nat → Prop) (step : Option (Nat × Int) → Nat → Option (Nat × Int))
    (hstep : ∀ acc j, step acc j = acc ∨ ∃ c, step acc j = some (j, c) ∧ P j) :
    ∀ (l : List Nat) (acc : Option (Nat × Int)),
      (∀ i c, acc = some (i, c) → P i) →
      ∀ i c, l.foldl step acc = some (i, c) → P i := by
  intro l
  induction l with
  | nil => intro acc hacc i c h; exact hacc i c h
  | cons j l ih =>
    intro acc hacc i c h
    rw [List.foldl_cons] at h
    refine ih (step acc j) ?_ i c h
    intro i' c' h'
    rcases hstep acc j with he | ⟨c'', he, hP⟩
    · rw [he] at h'; exact hacc i' c' h'
    · rw [he] at h'
      have hji : j = i' := by
        simp only [Option.some.injEq, Prod.mk.injEq] at h'
        exact h'.1
      exact hji ▸ hP

lemma stepLunchRest_cases (locs : List Location) (tt : Nat → Nat → Int)
    (visited : Nat → Bool) (start_idx current : Nat) (t le_ : Int) :
    ∀ acc j, stepLunchRest locs tt visited start_idx current t le_ acc j = acc ∨
      ∃ c, stepLunchRest locs tt visited start_idx current t le_ acc j = some (j, c) ∧
        (visited j = false ∧ j ≠ start_idx) := by
  intro acc j
  unfold stepLunchRest
  by_cases hg : (visited j || j == start_idx) = true
  · rw [if_pos hg]
    exact Or.inl rfl
  · have hg' : (visited j || j == start_idx) = false := by
      revert hg
      cases visited j || j == start_idx <;> simp
    have hP : visited j = false ∧ j ≠ start_idx := by
      rw [Bool.or_eq_false_iff] at hg'
      exact ⟨hg'.1, by simpa using hg'.2⟩
    rw [if_neg hg]
    dsimp only
    repeat' split
    all_goals first
      | exact Or.inl rfl
      | exact Or.inr ⟨_, rfl, hP⟩

lemma stepLunchAny_cases (locs : List Location) (tt : Nat → Nat → Int)
    (visited : Nat → Bool) (start_idx current : Nat) (t ls le_ : Int) :
    ∀ acc j, stepLunchAny locs tt visited start_idx current t ls le_ acc j = acc ∨
      ∃ c, stepLunchAny locs tt visited start_idx current t ls le_ acc j = some (j, c) ∧
        (visited j = false ∧ j ≠ start_idx) := by
  intro acc j
  unfold stepLunchAny
  by_cases hg : (visited j || j == start_idx) = true
  · rw [if_pos hg]
    exact Or.inl rfl
  · have hg' : (visited j || j == start_idx) = false := by
      revert hg
      cases visited j || j == start_idx <;> simp
    have hP : visited j = false ∧ j ≠ start_idx := by
      rw [Bool.or_eq_false_iff] at hg'
      exact ⟨hg'.1, by simpa using hg'.2⟩
    rw [if_neg hg]
    dsimp only
    repeat' split
    all_goals first
      | exact Or.inl rfl
      | exact Or.inr ⟨_, rfl, hP⟩

lemma selectLunchSpot_spec (locs : List Location) (tt : Nat → Nat → Int)
    (rs : List Nat) (visited : Nat → Bool) (start_idx current : Nat) (t ls le_ : Int)
    (b : Nat)
    (h : selectLunchSpot locs tt rs visited start_idx current t ls le_ = some b) :
    visited b = false ∧ b ≠ start_idx := by
  unfold selectLunchSpot at h
  cases hr : rs.foldl (stepLunchRest locs tt visited start_idx current t le_) none with
  | some p =>
    obtain ⟨i, c⟩ := p
    rw [hr] at h
    have hbi : i = b := by simpa using h
    exact hbi ▸ foldl_opt_inv (fun k => visited k = false ∧ k ≠ start_idx) _
      (stepLunchRest_cases locs tt visited start_idx current t le_) rs none
      (fun _ _ hx => by cases hx) i c hr
  | none =>
    rw [hr] at h
    dsimp only at h
    obtain ⟨⟨i, c⟩, hfold, hfst⟩ := Option.map_eq_some'.mp h
    have hbi : i = b := hfst
    exact hbi ▸ foldl_opt_inv (fun k => visited k = false ∧ k ≠ start_idx) _
      (stepLunchAny_cases locs tt visited start_idx current t ls le_)
      (List.range locs.length) none (fun _ _ hx => by cases hx) i c hfold

/-!  Claim C10: occurrence structure of the route. -/

lemma nodup_snoc (l : List Nat) (a : Nat) (h1 : l.Nodup) (h2 : a ∉ l) :
    (l ++ [a]).Nodup :=
  List.Nodup.append h1 (List.nodup_singleton a) (List.disjoint_singleton.mpr h2)

lemma route_shape_invariant (locs : List Location) (tt : Nat → Nat → Int) (si : Nat)
    (st : Int) (lw : Int × Int) (ld : Int) (rl : Option (List Nat)) :
    ∃ rest, (finalState locs tt si st lw ld rl).entries =
        ⟨si, st, StopKind.start⟩ :: rest ∧
      (rest.map Stop.idx).Nodup ∧ si ∉ rest.map Stop.idx ∧
      ∀ j ∈ rest.map Stop.idx, (finalState locs tt si st lw ld rl).visited j = true := by
  refine finalState_inv locs tt si st lw ld rl
    (fun s => ∃ rest, s.entries = ⟨si, st, StopKind.start⟩ :: rest ∧
      (rest.map Stop.idx).Nodup ∧ si ∉ rest.map Stop.idx ∧
      ∀ j ∈ rest.map Stop.idx, s.visited j = true) ?_ ?_ ?_ ?_
  · intro s s' _ hins hP
    obtain ⟨b, arr, hsel, hent, hvis, _, _, _, _, _⟩ :=
      lunchInsert_some locs tt _ si lw.1 lw.2 ld s s' hins
    obtain ⟨hb, hbsi⟩ := selectLunchSpot_spec locs tt _ s.visited si s.current
      s.current_time lw.1 lw.2 b hsel
    obtain ⟨rest, he, hnd, hsi, hv⟩ := hP
    refine ⟨rest ++ [⟨b, arr, StopKind.lunch⟩], ?_, ?_, ?_, ?_⟩
    · rw [hent, he]; rfl
    · rw [List.map_append]
      refine nodup_snoc _ _ hnd ?_
      intro hmem
      have hbv : s.visited b = true := hv _ (by simpa using hmem)
      rw [hb] at hbv
      cases hbv
    · rw [List.map_append, List.mem_append]
      rintro (h | h)
      · exact hsi h
      · have h' : si = b := by simpa using h
        exact hbsi h'.symm
    · intro j hj
      rw [hvis]
      dsimp only
      by_cases hjb : j = b
      · rw [if_pos hjb]
      · rw [if_neg hjb]
        rw [List.map_append, List.mem_append] at hj
        rcases hj with hj | hj
        · exact hv j hj
        · have h' : j = b := by simpa using hj
          exact absurd h' hjb
  · intro s hP
    obtain ⟨rest, he, hnd, hsi, hv⟩ := hP
    exact ⟨rest, he, hnd, hsi, hv⟩
  · intro s i c hsel hP
    obtain ⟨hin, hfeas, _, _⟩ :=
      selectNext_some_spec locs tt s.visited si s.current s.current_time i c hsel
    obtain ⟨hiv, hisi, _⟩ :=
      nextFeasible_destruct locs tt s.visited si s.current s.current_time i hfeas
    obtain ⟨rest, he, hnd, hsi, hv⟩ := hP
    unfold visitNext
    dsimp only
    refine ⟨rest ++ [⟨i, clampedArrival locs tt s.current s.current_time i,
      StopKind.normal⟩], ?_, ?_, ?_, ?_⟩
    · rw [he]; rfl
    · rw [List.map_append]
      refine nodup_snoc _ _ hnd ?_
      intro hmem
      have hbv : s.visited i = true := hv _ (by simpa using hmem)
      rw [hiv] at hbv
      cases hbv
    · rw [List.map_append, List.mem_append]
      rintro (h | h)
      · exact hsi h
      · have h' : si = i := by simpa using h
        exact hisi h'.symm
    · intro j hj
      by_cases hji : j = i
      · rw [if_pos hji]
      · rw [if_neg hji]
        rw [List.map_append, List.mem_append] at hj
        rcases hj with hj | hj
        · exact hv j hj
        · have h' : j = i := by simpa using hj
          exact absurd h' hji
  · exact ⟨[], rfl, List.nodup_nil, by simp, by simp⟩

/-- Claim C10: in every route produced by build_itinerary, the start index is
the first element; every other index occurs at most once; and the start index
recurs at most once more, only as the final hotel-return element, never as an
intermediate stop. -/
theorem route_occurrences (locs : List Location) (tt : Nat → Nat → Int)
    (si : Nat) (st : Int) (rth : Bool) (lw : Int × Int) (ld : Int)
    (rl : Option (List Nat)) :
    ∃ mid : List Nat, mid.Nodup ∧ si ∉ mid ∧
      ((build_itinerary locs tt si st rth lw ld rl).route = si :: mid ∨
       (build_itinerary locs tt si st rth lw ld rl).route = si :: (mid ++ [si])) := by
  obtain ⟨rest, he, hnd, hsi, _⟩ := route_shape_invariant locs tt si st lw ld rl
  rw [build_itinerary_eq]
  unfold BuildResult.route
  simp only
  refine ⟨rest.map Stop.idx, hnd, hsi, ?_⟩
  by_cases hc : (rth && !((finalState locs tt si st lw ld rl).current == si)) = true
  · rw [if_pos hc]
    right
    dsimp only
    rw [he]
    simp [List.map_append]
  · rw [if_neg hc]
    left
    dsimp only
    rw [he]
    simp

/-!  Claim C8: behaviour when nothing is feasible from the start state. -/

/-- Concrete fixture: a hotel and a location that already closed (close 100)
long before the 12:00 start, so it is infeasible for the greedy selection, yet
the any-location lunch scan (which never checks closing times) can still pick
it. -/
def locsC : List Location :=
  [⟨"Hotel", 0, 1440, 0, none⟩, ⟨"Museum", 0, 100, 5, none⟩]

def ttC : Nat → Nat → Int := fun _ _ => 10

/-- Claim C8 (counterexample to the claim as stated): at start time 720 every
location beyond the start is infeasible (the museum closed at 100), yet the
returned route is [0, 1, 0], not the one-element route [0]: the lunch scan
inserts the closed museum as a lunch spot because it ignores closing times, and
the hotel return is then appended. -/
theorem infeasible_start_route_not_singleton :
    (∀ i ∈ List.range locsC.length,
      nextFeasible locsC ttC (fun _ => false) 0 0 720 i = false) ∧
    (build_itinerary locsC ttC 0 720 true (720, 900) 60 none).route = [0, 1, 0] := by
  constructor
  · decide
  · decide

/-- Claim C8 (amended): if zero locations beyond the start are feasible from
the start state and the lunch-spot scan also selects nothing at the start
state, build_itinerary returns normally with the one-element route [start],
end time equal to the start time and no meals recorded. -/
theorem no_feasible_no_lunch_singleton (locs : List Location) (tt : Nat → Nat → Int)
    (si : Nat) (st : Int) (rth : Bool) (lw : Int × Int) (ld : Int)
    (rl : Option (List Nat))
    (hfeas : ∀ i ∈ List.range locs.length,
      nextFeasible locs tt (fun _ => false) si si st i = false)
    (hlunch : selectLunchSpot locs tt (restaurantsOf locs si rl) (fun _ => false)
      si si st lw.1 lw.2 = none) :
    (build_itinerary locs tt si st rth lw ld rl).route = [si] ∧
    (build_itinerary locs tt si st rth lw ld rl).end_time = st ∧
    (build_itinerary locs tt si st rth lw ld rl).meal_times = MealTimes.empty := by
  have hnone : ∀ s : BuildState, s.visited = (fun _ => false) → s.current = si →
      s.current_time = st →
      selectNext locs tt s.visited si s.current s.current_time = none := by
    intro s hv hc hts
    cases h : selectNext locs tt s.visited si s.current s.current_time with
    | none => rfl
    | some p =>
      obtain ⟨hin, hf, _, _⟩ := selectNext_some_spec locs tt s.visited si s.current
        s.current_time p.1 p.2 (by rw [h])
      rw [hv, hc, hts] at hf
      rw [hfeas p.1 (List.mem_range.mpr hin)] at hf
      cases hf
  have hfs : (finalState locs tt si st lw ld rl).entries = [⟨si, st, StopKind.start⟩] ∧
      (finalState locs tt si st lw ld rl).current = si ∧
      (finalState locs tt si st lw ld rl).current_time = st ∧
      (finalState locs tt si st lw ld rl).meal_times = MealTimes.empty := by
    unfold finalState
    rcases lunchPhase_cases locs tt (restaurantsOf locs si rl) si lw.1 lw.2 ld
        (initState si st) with ⟨s', hp, _, hins⟩ | ⟨hp, _⟩ | hp
    · obtain ⟨b, arr, hsel2, _⟩ := lunchInsert_some locs tt _ si lw.1 lw.2 ld _ s' hins
      rw [show (initState si st).visited = (fun _ => false) from rfl,
        show (initState si st).current = si from rfl,
        show (initState si st).current_time = st from rfl, hlunch] at hsel2
      cases hsel2
    · rw [buildLoop_succ_pass_none locs tt _ si lw.1 lw.2 ld locs.length _ _ hp
        (hnone _ rfl rfl rfl)]
      exact ⟨rfl, rfl, rfl, rfl⟩
    · rw [buildLoop_succ_pass_none locs tt _ si lw.1 lw.2 ld locs.length _ _ hp
        (hnone _ rfl rfl rfl)]
      exact ⟨rfl, rfl, rfl, rfl⟩
  rw [build_itinerary_eq]
  unfold BuildResult.route
  simp only
  rw [if_neg (by rw [hfs.2.1]; simp)]
  refine ⟨?_, hfs.2.2.1, hfs.2.2.2⟩
  rw [hfs.1]
  rfl

/-- Witness for the amended claim C8 at a concrete input (start at 1000, after
the lunch window, with the museum long closed). -/
theorem no_feasible_no_lunch_singleton_witness :
    ((∀ i ∈ List.range locsC.length,
        nextFeasible locsC ttC (fun _ => false) 0 0 1000 i = false) ∧
      selectLunchSpot locsC ttC (restaurantsOf locsC 0 none) (fun _ => false)
        0 0 1000 720 900 = none) ∧
    (build_itinerary locsC ttC 0 1000 true (720, 900) 60 none).route = [0] :=
  ⟨⟨by decide, by decide⟩,
    (no_feasible_no_lunch_singleton locsC ttC 0 1000 true (720, 900) 60 none
      (by decide) (by decide)).1⟩

/-- Witness for claim C2 at a concrete input. -/
theorem greedy_choice_minimizes_cost_witness :
    selectNext locsB ttB (fun _ => false) 0 0 0 = some (1, 60) ∧
    (nextFeasible locsB ttB (fun _ => false) 0 0 0 1 = true ∧
      ∀ j, j < locsB.length → nextFeasible locsB ttB (fun _ => false) 0 0 0 j = true →
        travelCost locsB ttB 0 0 1 ≤ travelCost locsB ttB 0 0 j ∧
        (travelCost locsB ttB 0 0 j = travelCost locsB ttB 0 0 1 → 1 ≤ j)) :=
  ⟨by decide,
    greedy_choice_minimizes_cost locsB ttB (fun _ => false) 0 0 0 1 60 (by decide)⟩

/-- Witness for the amended claim C5 at a concrete input where lunch is
inserted. -/
theorem lunch_time_at_least_window_start_witness :
    (build_itinerary locsC ttC 0 720 true (720, 900) 60 none).meal_times.lunch_time =
      some 730 ∧ (720 : Int) ≤ 730 :=
  ⟨by decide,
    lunch_time_at_least_window_start locsC ttC 0 720 true (720, 900) 60 none 730 (by decide)⟩

/-!  Claim C9: the priority field is inert. -/

/-- Two location lists agreeing in everything except possibly the priority
field. -/
def LocEquiv (l₁ l₂ : List Location) : Prop :=
  l₁.length = l₂.length ∧ ∀ i < l₁.length,
    (getLoc l₁ i).name = (getLoc l₂ i).name ∧
    (getLoc l₁ i).open_time = (getLoc l₂ i).open_time ∧
    (getLoc l₁ i).close_time = (getLoc l₂ i).close_time ∧
    (getLoc l₁ i).duration = (getLoc l₂ i).duration

lemma getLoc_default (locs : List Location) (i : Nat) (h : locs.length ≤ i) :
    getLoc locs i = default :=
  List.getD_eq_default locs default h

lemma LocEquiv.proj {l₁ l₂ : List Location} (h : LocEquiv l₁ l₂) (i : Nat) :
    (getLoc l₁ i).name = (getLoc l₂ i).name ∧
    (getLoc l₁ i).open_time = (getLoc l₂ i).open_time ∧
    (getLoc l₁ i).close_time = (getLoc l₂ i).close_time ∧
    (getLoc l₁ i).duration = (getLoc l₂ i).duration := by
  by_cases hi : i < l₁.length
  · exact h.2 i hi
  · rw [getLoc_default l₁ i (not_lt.mp hi),
      getLoc_default l₂ i (by rw [← h.1]; exact not_lt.mp hi)]
    exact ⟨rfl, rfl, rfl, rfl⟩

lemma clampedArrival_congr {l₁ l₂ : List Location} (h : LocEquiv l₁ l₂)
    (tt : Nat → Nat → Int) (current : Nat) (t : Int) (i : Nat) :
    clampedArrival l₁ tt current t i = clampedArrival l₂ tt current t i := by
  unfold clampedArrival
  rw [(h.proj i).2.1]

lemma travelCost_congr {l₁ l₂ : List Location} (h : LocEquiv l₁ l₂)
    (tt : Nat → Nat → Int) (current : Nat) (t : Int) (i : Nat) :
    travelCost l₁ tt current t i = travelCost l₂ tt current t i := by
  unfold travelCost
  rw [(h.proj i).2.1]

lemma stepNext_congr {l₁ l₂ : List Location} (h : LocEquiv l₁ l₂)
    (tt : Nat → Nat → Int) (visited : Nat → Bool) (start_idx current : Nat) (t : Int)
    (acc : Option (Nat × Int)) (i : Nat) :
    stepNext l₁ tt visited start_idx current t acc i =
      stepNext l₂ tt visited start_idx current t acc i := by
  unfold stepNext
  rw [clampedArrival_congr h tt current t i, travelCost_congr h tt current t i,
    (h.proj i).2.2.1]

lemma foldl_congr_fn {α β : Type} (f g : α → β → α) (h : ∀ a b, f a b = g a b) :
    ∀ (l : List β) (a : α), l.foldl f a = l.foldl g a := by
  intro l
  induction l with
  | nil => intro a; rfl
  | cons x xs ih =>
    intro a
    rw [List.foldl_cons, List.foldl_cons, h, ih]

lemma selectNext_congr {l₁ l₂ : List Location} (h : LocEquiv l₁ l₂)
    (tt : Nat → Nat → Int) (visited : Nat → Bool) (start_idx current : Nat) (t : Int) :
    selectNext l₁ tt visited start_idx current t =
      selectNext l₂ tt visited start_idx current t := by
  unfold selectNext
  rw [h.1]
  exact foldl_congr_fn _ _
    (fun acc i => stepNext_congr h tt visited start_idx current t acc i) _ _

lemma stepLunchRest_congr {l₁ l₂ : List Location} (h : LocEquiv l₁ l₂)
    (tt : Nat → Nat → Int) (visited : Nat → Bool) (start_idx current : Nat)
    (t le_ : Int) (acc : Option (Nat × Int)) (i : Nat) :
    stepLunchRest l₁ tt visited start_idx current t le_ acc i =
      stepLunchRest l₂ tt visited start_idx current t le_ acc i := by
  unfold stepLunchRest
  rw [(h.proj i).2.1, (h.proj i).2.2.1]

lemma stepLunchAny_congr {l₁ l₂ : List Location} (h : LocEquiv l₁ l₂)
    (tt : Nat → Nat → Int) (visited : Nat → Bool) (start_idx current : Nat)
    (t ls le_ : Int) (acc : Option (Nat × Int)) (i : Nat) :
    stepLunchAny l₁ tt visited start_idx current t ls le_ acc i =
      stepLunchAny l₂ tt visited start_idx current t ls le_ acc i := by
  unfold stepLunchAny
  rw [(h.proj i).2.1, (h.proj i).2.2.2]

lemma selectLunchSpot_congr {l₁ l₂ : List Location} (h : LocEquiv l₁ l₂)
    (tt : Nat → Nat → Int) (rs : List Nat) (visited : Nat → Bool)
    (start_idx current : Nat) (t ls le_ : Int) :
    selectLunchSpot l₁ tt rs visited start_idx current t ls le_ =
      selectLunchSpot l₂ tt rs visited start_idx current t ls le_ := by
  unfold selectLunchSpot
  rw [foldl_congr_fn _ _
      (fun acc i => stepLunchRest_congr h tt visited start_idx current t le_ acc i) rs none,
    h.1,
    foldl_congr_fn _ _
      (fun acc i => stepLunchAny_congr h tt visited start_idx current t ls le_ acc i)
      (List.range l₂.length) none]

lemma lunchInsert_congr {l₁ l₂ : List Location} (h : LocEquiv l₁ l₂)
    (tt : Nat → Nat → Int) (rs : List Nat) (si : Nat) (ls le_ ld : Int)
    (s : BuildState) :
    lunchInsert l₁ tt rs si ls le_ ld s = lunchInsert l₂ tt rs si ls le_ ld s := by
  unfold lunchInsert
  rw [selectLunchSpot_congr h tt rs s.visited si s.current s.current_time ls le_]
  cases selectLunchSpot l₂ tt rs s.visited si s.current s.current_time ls le_ with
  | none => rfl
  | some b =>
    dsimp only
    rw [(h.proj b).2.1]

lemma visitNext_congr {l₁ l₂ : List Location} (h : LocEquiv l₁ l₂)
    (tt : Nat → Nat → Int) (s : BuildState) (i : Nat) :
    visitNext l₁ tt s i = visitNext l₂ tt s i := by
  unfold visitNext
  rw [clampedArrival_congr h tt s.current s.current_time i, (h.proj i).2.2.2]

lemma lunchPhase_congr {l₁ l₂ : List Location} (h : LocEquiv l₁ l₂)
    (tt : Nat → Nat → Int) (rs : List Nat) (si : Nat) (ls le_ ld : Int)
    (s : BuildState) :
    lunchPhase l₁ tt rs si ls le_ ld s = lunchPhase l₂ tt rs si ls le_ ld s := by
  unfold lunchPhase
  rw [lunchInsert_congr h tt rs si ls le_ ld s]

lemma buildLoop_congr {l₁ l₂ : List Location} (h : LocEquiv l₁ l₂)
    (tt : Nat → Nat → Int) (rs : List Nat) (si : Nat) (ls le_ ld : Int) :
    ∀ fuel s, buildLoop l₁ tt rs si ls le_ ld fuel s =
      buildLoop l₂ tt rs si ls le_ ld fuel s := by
  intro fuel
  induction fuel with
  | zero => intro s; rfl
  | succ n ih =>
    intro s
    rw [buildLoop, buildLoop, lunchPhase_congr h tt rs si ls le_ ld s]
    cases lunchPhase l₂ tt rs si ls le_ ld s with
    | inserted s' =>
      dsimp only
      exact ih s'
    | pass s' =>
      dsimp only
      rw [selectNext_congr h tt s'.visited si s'.current s'.current_time]
      cases hp : selectNext l₂ tt s'.visited si s'.current s'.current_time with
      | none => rfl
      | some p =>
        obtain ⟨i, c⟩ := p
        dsimp only
        rw [visitNext_congr h tt s' i]
        exact ih _

lemma autoRestaurants_congr {l₁ l₂ : List Location} (h : LocEquiv l₁ l₂) (si : Nat) :
    autoRestaurants l₁ si = autoRestaurants l₂ si := by
  unfold autoRestaurants
  rw [h.1]
  apply List.filter_congr
  intro i _
  rw [(h.proj i).1]

/-- Claim C9: the priority field is inert — two calls of build_itinerary whose
location lists agree in name, window and duration (priorities arbitrary), with
the same matrix, start index, start time and options, return identical results
(route entries, end time and meal times). -/
theorem priority_field_inert (l₁ l₂ : List Location) (tt : Nat → Nat → Int)
    (si : Nat) (st : Int) (rth : Bool) (lw : Int × Int) (ld : Int)
    (rl : Option (List Nat)) (h : LocEquiv l₁ l₂) :
    build_itinerary l₁ tt si st rth lw ld rl = build_itinerary l₂ tt si st rth lw ld rl := by
  unfold build_itinerary
  cases rl with
  | some rs =>
    dsimp only
    rw [h.1]
    rw [buildLoop_congr h tt rs si lw.1 lw.2 ld (l₂.length + 1)]
  | none =>
    dsimp only
    rw [h.1, autoRestaurants_congr h si]
    rw [buildLoop_congr h tt (autoRestaurants l₂ si) si lw.1 lw.2 ld (l₂.length + 1)]

/-- Concrete fixtures differing only in priorities. -/
def locsP1 : List Location :=
  [⟨"Hotel", 0, 1440, 0, none⟩, ⟨"Museum", 0, 1440, 30, some 5⟩]

def locsP2 : List Location :=
  [⟨"Hotel", 0, 1440, 0, some 1⟩, ⟨"Museum", 0, 1440, 30, none⟩]

/-- Witness for claim C9 at concrete inputs differing only in priorities. -/
theorem priority_field_inert_witness :
    LocEquiv locsP1 locsP2 ∧
    build_itinerary locsP1 ttA 0 540 true (720, 900) 60 none =
      build_itinerary locsP2 ttA 0 540 true (720, 900) 60 none :=
  ⟨⟨rfl, by decide⟩,
    priority_field_inert locsP1 locsP2 ttA 0 540 true (720, 900) 60 none ⟨rfl, by decide⟩⟩

/-!  Embedding of the meal-splicing post-processor of build_itinerary_api
(itinerary/api.py lines 486-811).  The route produced by build_itinerary is
walked again; a lunch restaurant is spliced in as the sentinel index -2 and a
dinner restaurant as -1.  Coordinate availability, the
find_restaurant_near_location calls and the haversine travel estimates
(max(1, int(km * 1.2))) are collaborator effects, supplied as oracles; a Python
exception escaping the handler (math.radians(None) on the coordinate-free
restaurant path, or an out-of-range location_coords subscript) is the none
result. -/

/-- The api-level meal_times dict (restaurant names and addresses, not
indices). -/
structure ApiMeals where
  lunch_time : Option Int
  lunch_location : Option String
  lunch_address : Option String
  dinner_time : Option Int
  dinner_location : Option String
  dinner_address : Option String
deriving Repr, DecidableEq

def ApiMeals.empty : ApiMeals := ⟨none, none, none, none, none, none⟩

/-- Collaborator oracles of the post-processor: hasEntry i models
`request.location_coords` being non-null with more than i entries; coordsOk i
models `location_coords[i].lat and location_coords[i].lon` being truthy;
findNear i is the find_restaurant_near_location result searched near location
i; the hav* fields are the haversine travel estimates. -/
structure ApiOracles where
  hasEntry : Nat → Bool
  coordsOk : Nat → Bool
  findNear : Nat → Option RestaurantResult
  havTo : Nat → RestaurantResult → Int
  havFrom : RestaurantResult → Nat → Int
  havHotel : RestaurantResult → Int
  havLoc : Nat → Nat → Int

/-- The mutable state of the post-processing loop (api.py lines 486-490). -/
structure ApiState where
  current_time : Int
  current_idx : Int
  froute : List Int
  lunch_taken : Bool
  lunch_restaurant : Option RestaurantResult
  meal_times : ApiMeals
deriving Repr, DecidableEq

/-- Travel to the next location (api.py lines 497-517): haversine from the
lunch restaurant when sitting at the -2 marker, the matrix otherwise, and the
10-minute default when coordinates or a real index are missing. -/
def apiTravelTo (tt : Nat → Nat → Int) (o : ApiOracles) (s : ApiState) (idx : Nat) : Int :=
  match s.current_idx == -2, s.lunch_restaurant with
  | true, some r => if o.hasEntry idx && o.coordsOk idx then o.havFrom r idx else 10
  | _, _ => if 0 ≤ s.current_idx then tt s.current_idx.toNat idx else 10

/-- The before-visit lunch trigger (api.py lines 524-538). -/
def apiShouldLunchBefore (locs : List Location) (s : ApiState) (idx : Nat)
    (arrival : Int) : Bool :=
  !s.lunch_taken &&
    (decide (660 ≤ s.current_time) ||
     decide (720 ≤ arrival + (getLoc locs idx).duration) ||
     (decide (720 ≤ arrival) && decide (arrival ≤ 900)) ||
     (decide (s.current_time < 720) && decide (720 - s.current_time ≤ 60)))

/-- The search-center choice for the lunch restaurant (api.py lines 542-556):
the current location when it is a real index with usable coordinates, else the
next location when its coordinates are usable, else none. -/
def apiSearchCenter (o : ApiOracles) (s : ApiState) (idx : Nat) : Option Nat :=
  if 0 ≤ s.current_idx && o.hasEntry s.current_idx.toNat then
    (if o.coordsOk s.current_idx.toNat then some s.current_idx.toNat else none)
  else if o.hasEntry idx then
    (if o.coordsOk idx then some idx else none)
  else none

/-- A successful before-visit lunch insertion (api.py lines 570-625): append
the -2 marker, clamp the lunch arrival to 720, sit for 60 minutes, and, when
the skipped location's coordinates are usable, visit it from the restaurant;
otherwise the location is dropped (the source's bare continue at line 625). -/
def apiLunchInsertBefore (locs : List Location) (o : ApiOracles) (s : ApiState)
    (idx c : Nat) (r : RestaurantResult) : ApiState :=
  let travel_to_lunch := o.havTo c r
  let lunch_arrival0 := s.current_time + travel_to_lunch
  let lunch_arrival := if lunch_arrival0 < 720 then 720 else lunch_arrival0
  let s1 : ApiState :=
    { current_time := lunch_arrival + 60
      current_idx := -2
      froute := s.froute ++ [-2]
      lunch_taken := true
      lunch_restaurant := some r
      meal_times := { s.meal_times with
                      lunch_time := some lunch_arrival
                      lunch_location := some r.name
                      lunch_address := some r.address } }
  if o.hasEntry idx && o.coordsOk idx then
    let travel_from_lunch := o.havFrom r idx
    let a0 := s1.current_time + travel_from_lunch
    let a2 := if a0 < (getLoc locs idx).open_time then (getLoc locs idx).open_time else a0
    { s1 with
      froute := s1.froute ++ [(idx : Int)]
      current_time := a2 + (getLoc locs idx).duration
      current_idx := (idx : Int) }
  else s1

/-- The plain visit of a location (api.py lines 673-678): append it unless it
is already the last entry. -/
def apiAppendNormal (s : ApiState) (idx : Nat) (finish_time : Int) : ApiState :=
  { s with
    froute := if s.froute.getLast? == some ((idx : Int)) then s.froute
      else s.froute ++ [(idx : Int)]
    current_time := finish_time
    current_idx := (idx : Int) }

/-- The normal visit with the late-lunch catch-up (api.py lines 627-678): when
lunch is still pending and the finish time lands inside [720, 900], the
location is appended followed by the -2 marker. -/
def apiVisitNormal (locs : List Location) (o : ApiOracles) (s : ApiState) (idx : Nat)
    (arrival : Int) : ApiState :=
  let finish_time := arrival + (getLoc locs idx).duration
  if !s.lunch_taken && decide (720 ≤ finish_time) && decide (finish_time ≤ 900) then
    if o.hasEntry idx && o.coordsOk idx then
      match o.findNear idx with
      | some r =>
        let travel_to_lunch := o.havTo idx r
        let lunch_arrival0 := finish_time + travel_to_lunch
        let lunch_arrival := if lunch_arrival0 < 720 then 720 else lunch_arrival0
        { current_time := lunch_arrival + 60
          current_idx := -2
          froute := (s.froute ++ [(idx : Int)]) ++ [-2]
          lunch_taken := true
          lunch_restaurant := some r
          meal_times := { s.meal_times with
                          lunch_time := some lunch_arrival
                          lunch_location := some r.name
                          lunch_address := some r.address } }
      | none => apiAppendNormal { s with lunch_restaurant := none } idx finish_time
    else apiAppendNormal s idx finish_time
  else apiAppendNormal s idx finish_time

/-- One iteration of the post-processing loop (api.py lines 493-678).  The none
result is the TypeError of lines 570-571: a restaurant obtained through the
hotel-coordinates fallback while search_lat/search_lon are still None. -/
def apiStep (locs : List Location) (tt : Nat → Nat → Int) (start_idx : Nat)
    (o : ApiOracles) (s : ApiState) (idx : Nat) : Option ApiState :=
  let travel := apiTravelTo tt o s idx
  let arrival0 := s.current_time + travel
  let arrival := if arrival0 < (getLoc locs idx).open_time then (getLoc locs idx).open_time
    else arrival0
  if apiShouldLunchBefore locs s idx arrival then
    let sc := apiSearchCenter o s idx
    let lr : Option RestaurantResult :=
      match sc with
      | some c => o.findNear c
      | none =>
        if o.hasEntry start_idx && o.coordsOk start_idx then o.findNear start_idx
        else s.lunch_restaurant
    match lr with
    | some r =>
      match sc with
      | none => none
      | some c => some (apiLunchInsertBefore locs o s idx c r)
    | none => some (apiVisitNormal locs o { s with lunch_restaurant := none } idx arrival)
  else some (apiVisitNormal locs o s idx arrival)

/-- The loop over route_indices[1:] (api.py line 493). -/
def apiLoop (locs : List Location) (tt : Nat → Nat → Int) (start_idx : Nat)
    (o : ApiOracles) : List Nat → ApiState → Option ApiState
  | [], s => some s
  | idx :: rest, s =>
    match apiStep locs tt start_idx o s idx with
    | none => none
    | some s' => apiLoop locs tt start_idx o rest s'

/-- The last real (non-negative) index of the route (api.py lines 685-689). -/
def lastRealIdx (l : List Int) : Option Int :=
  l.reverse.find? (fun x => decide (0 ≤ x))

/-- End-time computation when no dinner restaurant was inserted and the last
real stop is away from the hotel (api.py lines 751-773); none is the
subscript error of line 753 when location_coords lacks the start entry. -/
def apiNoDinnerEnd (start_idx : Nat) (o : ApiOracles) (L : Int) (current_time : Int) :
    Option Int :=
  if o.hasEntry start_idx then
    if o.coordsOk start_idx then
      if o.hasEntry L.toNat && o.coordsOk L.toNat then
        some (current_time + o.havLoc L.toNat start_idx)
      else some current_time
    else some current_time
  else none

/-- The final hotel-return append (api.py lines 779-811); none is the
subscript error of line 790.  The locals() test at line 801 is always false
(end_time is bound at line 477), so the max branch is taken. -/
def apiHotelAppend (start_idx : Nat) (o : ApiOracles) (froute : List Int)
    (current_time end_time : Int) (meals : ApiMeals) (dinner_set : Bool) :
    Option (List Int × Int × ApiMeals) :=
  match froute.getLast? with
  | none => some (froute, end_time, meals)
  | some l =>
    if l = (start_idx : Int) then some (froute, end_time, meals)
    else if l = -1 then some (froute ++ [(start_idx : Int)], end_time, meals)
    else if dinner_set = false then
      if 0 ≤ l ∧ (o.hasEntry l.toNat && o.coordsOk l.toNat) = true then
        if o.hasEntry start_idx then
          if o.coordsOk start_idx then
            some (froute ++ [(start_idx : Int)],
              max end_time (current_time + o.havLoc l.toNat start_idx), meals)
          else some (froute ++ [(start_idx : Int)], end_time, meals)
        else none
      else some (froute ++ [(start_idx : Int)], end_time, meals)
    else some (froute ++ [(start_idx : Int)], end_time, meals)

/-- The dinner splice plus hotel return (api.py lines 680-811): near the last
real non-hotel stop with usable coordinates, one -1 marker is appended with the
1140/1260 dinner clamp of lines 722-723, then the hotel is appended. -/
def apiDinnerHotel (start_idx : Nat) (o : ApiOracles) (s : ApiState) (end0 : Int) :
    Option (List Int × Int × ApiMeals) :=
  if s.froute.isEmpty then
    apiHotelAppend start_idx o s.froute s.current_time end0 s.meal_times false
  else
    match lastRealIdx s.froute with
    | none =>
      apiHotelAppend start_idx o s.froute s.current_time s.current_time s.meal_times false
    | some L =>
      if L = (start_idx : Int) then
        apiHotelAppend start_idx o s.froute s.current_time s.current_time s.meal_times false
      else if (o.hasEntry L.toNat && o.coordsOk L.toNat) = true then
        match o.findNear L.toNat with
        | some r =>
          let froute1 := s.froute ++ [(-1 : Int)]
          let travel_to_dinner := o.havTo L.toNat r
          let dinner_start := api_dinner_start s.current_time travel_to_dinner
          let dinner_end := dinner_start + 60
          if o.hasEntry start_idx then
            let meals1 : ApiMeals :=
              { s.meal_times with
                dinner_time := some dinner_start
                dinner_location := some r.name
                dinner_address := some r.address }
            if o.coordsOk start_idx then
              apiHotelAppend start_idx o froute1 s.current_time
                (dinner_end + o.havHotel r) meals1 true
            else
              apiHotelAppend start_idx o froute1 s.current_time dinner_end meals1 true
          else none
        | none =>
          match apiNoDinnerEnd start_idx o L s.current_time with
          | none => none
          | some e => apiHotelAppend start_idx o s.froute s.current_time e s.meal_times false
      else
        match apiNoDinnerEnd start_idx o L s.current_time with
        | none => none
        | some e => apiHotelAppend start_idx o s.froute s.current_time e s.meal_times false

/-- The whole post-processor (api.py lines 486-811): walk the algorithm's
route from its second entry, splicing lunch and dinner, then append the hotel
return. -/
def apiPostProcess (locs : List Location) (tt : Nat → Nat → Int) (start_idx : Nat)
    (start_time : Int) (o : ApiOracles) (route_indices : List Nat)
    (end0 : Int) (meals0 : ApiMeals) : Option (List Int × Int × ApiMeals) :=
  match route_indices with
  | [] => none
  | r0 :: rest =>
    let init : ApiState :=
      { current_time := start_time
        current_idx := (r0 : Int)
        froute := [(r0 : Int)]
        lunch_taken := false
        lunch_restaurant := none
        meal_times := meals0 }
    match apiLoop locs tt start_idx o rest init with
    | none => none
    | some s => apiDinnerHotel start_idx o s end0

/-!  Claim C4, api side: the -2 lunch marker and the -1 dinner marker are each
appended at most once by the post-processor. -/

def isLunchMarker (x : Int) : Bool := x == -2

def isDinnerMarker (x : Int) : Bool := x == -1

lemma countP_int_snoc_true (p : Int → Bool) (l : List Int) (e : Int) (he : p e = true) :
    (l ++ [e]).countP p = l.countP p + 1 := by
  simp [List.countP_append, List.countP_cons, he]

lemma countP_int_snoc_false (p : Int → Bool) (l : List Int) (e : Int) (he : p e = false) :
    (l ++ [e]).countP p = l.countP p := by
  simp [List.countP_append, List.countP_cons, he]

lemma natCast_not_lunch_marker (idx : Nat) : isLunchMarker ((idx : Nat) : Int) = false := by
  simp only [isLunchMarker, beq_eq_false_iff_ne]
  intro h
  have := Int.natCast_nonneg idx
  omega

lemma natCast_not_dinner_marker (idx : Nat) : isDinnerMarker ((idx : Nat) : Int) = false := by
  simp only [isDinnerMarker, beq_eq_false_iff_ne]
  intro h
  have := Int.natCast_nonneg idx
  omega

/-- Invariant of the post-processing loop: no -2 marker while lunch is pending,
at most one -2 marker ever, and no -1 marker before the dinner phase. -/
def ApiCountInv (s : ApiState) : Prop :=
  (s.lunch_taken = false → s.froute.countP isLunchMarker = 0) ∧
  s.froute.countP isLunchMarker ≤ 1 ∧ s.froute.countP isDinnerMarker = 0

lemma lunch_marker_neg2 : isLunchMarker (-2) = true := rfl

lemma lunch_marker_neg1 : isLunchMarker (-1) = false := rfl

lemma dinner_marker_neg2 : isDinnerMarker (-2) = false := rfl

lemma dinner_marker_neg1 : isDinnerMarker (-1) = true := rfl

lemma apiLunchInsertBefore_inv (locs : List Location) (o : ApiOracles) (s : ApiState)
    (idx c : Nat) (r : RestaurantResult) (hlt : s.lunch_taken = false)
    (hs : ApiCountInv s) : ApiCountInv (apiLunchInsertBefore locs o s idx c r) := by
  have h0 := hs.1 hlt
  have hD := hs.2.2
  unfold apiLunchInsertBefore
  dsimp only
  split
  · refine ⟨?_, ?_, ?_⟩
    · intro hfalse; simp at hfalse
    · rw [countP_int_snoc_false isLunchMarker _ _ (natCast_not_lunch_marker idx),
        countP_int_snoc_true isLunchMarker _ (-2) lunch_marker_neg2, h0]
    · rw [countP_int_snoc_false isDinnerMarker _ _ (natCast_not_dinner_marker idx),
        countP_int_snoc_false isDinnerMarker _ (-2) dinner_marker_neg2, hD]
  · refine ⟨?_, ?_, ?_⟩
    · intro hfalse; simp at hfalse
    · rw [countP_int_snoc_true isLunchMarker _ (-2) lunch_marker_neg2, h0]
    · rw [countP_int_snoc_false isDinnerMarker _ (-2) dinner_marker_neg2, hD]

lemma apiAppendNormal_inv (s : ApiState) (idx : Nat) (ft : Int)
    (hs : ApiCountInv s) : ApiCountInv (apiAppendNormal s idx ft) := by
  unfold apiAppendNormal
  split
  · exact hs
  · refine ⟨?_, ?_, ?_⟩
    · intro hfalse
      rw [countP_int_snoc_false isLunchMarker _ _ (natCast_not_lunch_marker idx)]
      exact hs.1 hfalse
    · rw [countP_int_snoc_false isLunchMarker _ _ (natCast_not_lunch_marker idx)]
      exact hs.2.1
    · rw [countP_int_snoc_false isDinnerMarker _ _ (natCast_not_dinner_marker idx)]
      exact hs.2.2

lemma apiVisitNormal_inv (locs : List Location) (o : ApiOracles) (s : ApiState)
    (idx : Nat) (arrival : Int) (hs : ApiCountInv s) :
    ApiCountInv (apiVisitNormal locs o s idx arrival) := by
  unfold apiVisitNormal
  dsimp only
  split
  next hguard =>
    have hlt : s.lunch_taken = false := by
      simp only [Bool.and_eq_true, Bool.not_eq_true'] at hguard
      exact hguard.1.1
    have h0 := hs.1 hlt
    have hD := hs.2.2
    split
    · cases o.findNear idx with
      | some r =>
        dsimp only
        refine ⟨?_, ?_, ?_⟩
        · intro hfalse; simp at hfalse
        · rw [countP_int_snoc_true isLunchMarker _ (-2) lunch_marker_neg2,
            countP_int_snoc_false isLunchMarker _ _ (natCast_not_lunch_marker idx), h0]
        · rw [countP_int_snoc_false isDinnerMarker _ (-2) dinner_marker_neg2,
            countP_int_snoc_false isDinnerMarker _ _ (natCast_not_dinner_marker idx), hD]
      | none => exact apiAppendNormal_inv _ idx _ hs
    · exact apiAppendNormal_inv s idx _ hs
  next => exact apiAppendNormal_inv s idx _ hs

lemma apiStep_inv (locs : List Location) (tt : Nat → Nat → Int) (start_idx : Nat)
    (o : ApiOracles) (s : ApiState) (idx : Nat) (s' : ApiState)
    (h : apiStep locs tt start_idx o s idx = some s') (hs : ApiCountInv s) :
    ApiCountInv s' := by
  unfold apiStep at h
  dsimp only at h
  generalize hA : (if s.current_time + apiTravelTo tt o s idx < (getLoc locs idx).open_time
    then (getLoc locs idx).open_time
    else s.current_time + apiTravelTo tt o s idx) = A at h
  by_cases hg : apiShouldLunchBefore locs s idx A = true
  · rw [if_pos hg] at h
    have hlt : s.lunch_taken = false := by
      simp only [apiShouldLunchBefore, Bool.and_eq_true, Bool.not_eq_true'] at hg
      exact hg.1
    cases hsc : apiSearchCenter o s idx with
    | some c =>
      rw [hsc] at h
      dsimp only at h
      cases hfn : o.findNear c with
      | some r =>
        rw [hfn] at h
        dsimp only at h
        injection h with h
        exact h ▸ apiLunchInsertBefore_inv locs o s idx c r hlt hs
      | none =>
        rw [hfn] at h
        dsimp only at h
        injection h with h
        exact h ▸ apiVisitNormal_inv locs o _ idx A hs
    | none =>
      rw [hsc] at h
      dsimp only at h
      cases hlr : (if o.hasEntry start_idx && o.coordsOk start_idx then o.findNear start_idx
          else s.lunch_restaurant) with
      | some r =>
        rw [hlr] at h
        dsimp only at h
        cases h
      | none =>
        rw [hlr] at h
        dsimp only at h
        injection h with h
        exact h ▸ apiVisitNormal_inv locs o _ idx A hs
  · rw [if_neg hg] at h
    injection h with h
    exact h ▸ apiVisitNormal_inv locs o s idx A hs

lemma apiLoop_inv (locs : List Location) (tt : Nat → Nat → Int) (start_idx : Nat)
    (o : ApiOracles) :
    ∀ (l : List Nat) (s s' : ApiState), apiLoop locs tt start_idx o l s = some s' →
      ApiCountInv s → ApiCountInv s' := by
  intro l
  induction l with
  | nil =>
    intro s s' h hs
    rw [apiLoop] at h
    injection h with h
    exact h ▸ hs
  | cons idx rest ih =>
    intro s s' h hs
    rw [apiLoop] at h
    cases hstep : apiStep locs tt start_idx o s idx with
    | none => rw [hstep] at h; cases h
    | some s1 =>
      rw [hstep] at h
      exact ih s1 s' h (apiStep_inv locs tt start_idx o s idx s1 hstep hs)

lemma apiHotelAppend_counts (start_idx : Nat) (o : ApiOracles) (froute : List Int)
    (ct et : Int) (meals : ApiMeals) (ds : Bool) (out : List Int × Int × ApiMeals)
    (h : apiHotelAppend start_idx o froute ct et meals ds = some out) :
    out.1.countP isLunchMarker = froute.countP isLunchMarker ∧
    out.1.countP isDinnerMarker = froute.countP isDinnerMarker := by
  unfold apiHotelAppend at h
  repeat' split at h
  all_goals first
    | exact Option.noConfusion h
    | (injection h with h
       rw [← h]
       exact ⟨rfl, rfl⟩)
    | (injection h with h
       rw [← h]
       exact ⟨countP_int_snoc_false isLunchMarker _ _ (natCast_not_lunch_marker start_idx),
         countP_int_snoc_false isDinnerMarker _ _ (natCast_not_dinner_marker start_idx)⟩)

lemma apiDinnerHotel_counts (start_idx : Nat) (o : ApiOracles) (s : ApiState)
    (end0 : Int) (out : List Int × Int × ApiMeals)
    (h : apiDinnerHotel start_idx o s end0 = some out) (hs : ApiCountInv s) :
    out.1.countP isLunchMarker ≤ 1 ∧ out.1.countP isDinnerMarker ≤ 1 := by
  have hL := hs.2.1
  have hD := hs.2.2
  have hones : (s.froute ++ [(-1 : Int)]).countP isLunchMarker ≤ 1 := by
    rw [countP_int_snoc_false isLunchMarker _ (-1) lunch_marker_neg1]
    exact hL
  have honesD : (s.froute ++ [(-1 : Int)]).countP isDinnerMarker ≤ 1 := by
    rw [countP_int_snoc_true isDinnerMarker _ (-1) dinner_marker_neg1, hD]
  unfold apiDinnerHotel at h
  repeat' split at h
  all_goals first
    | exact Option.noConfusion h
    | (obtain ⟨h1, h2⟩ := apiHotelAppend_counts _ _ _ _ _ _ _ _ h
       refine ⟨?_, ?_⟩
       · rw [h1]
         first
           | exact hL
           | exact hones
       · rw [h2]
         first
           | (rw [hD]; omega)
           | exact honesD)

lemma apiInit_inv (r0 : Nat) (st : Int) (meals0 : ApiMeals) :
    ApiCountInv { current_time := st, current_idx := ((r0 : Nat) : Int),
                  froute := [((r0 : Nat) : Int)], lunch_taken := false,
                  lunch_restaurant := none, meal_times := meals0 } := by
  refine ⟨fun _ => ?_, ?_, ?_⟩ <;>
    simp [List.countP_cons, natCast_not_lunch_marker, natCast_not_dinner_marker]

/-- Claim C4: in any single itinerary build, lunch is inserted at most once and
dinner at most once, in both cited implementations: build_itinerary
(itinerary_algorithm.py) appends at most one lunch stop and at most one
hotel-return dinner stop, and the post-processing loop of build_itinerary_api
(itinerary/api.py) appends the -2 lunch marker at most once and the -1 dinner
marker at most once — once lunch is taken it is never retried. -/
theorem meal_inserted_at_most_once (locs : List Location) (tt : Nat → Nat → Int)
    (si : Nat) (st : Int) (rth : Bool) (lw : Int × Int) (ld : Int)
    (rl : Option (List Nat)) (o : ApiOracles) (route : List Nat) (end0 : Int)
    (meals0 : ApiMeals) :
    ((build_itinerary locs tt si st rth lw ld rl).entries.countP isLunchStop ≤ 1 ∧
     (build_itinerary locs tt si st rth lw ld rl).entries.countP isHotelStop ≤ 1) ∧
    ∀ froute endT mealsT,
      apiPostProcess locs tt si st o route end0 meals0 = some (froute, endT, mealsT) →
      froute.countP isLunchMarker ≤ 1 ∧ froute.countP isDinnerMarker ≤ 1 := by
  constructor
  · rw [build_itinerary_eq]
    simp only
    obtain ⟨_, hL, hH⟩ := meal_counts_invariant locs tt si st lw ld rl
    by_cases hc : (rth && !((finalState locs tt si st lw ld rl).current == si)) = true
    · rw [if_pos hc]
      rw [countP_snoc_false isLunchStop (finalState locs tt si st lw ld rl).entries
          ⟨si, (finalState locs tt si st lw ld rl).current_time +
            tt (finalState locs tt si st lw ld rl).current si, StopKind.hotelReturn⟩ rfl,
        countP_snoc_true isHotelStop (finalState locs tt si st lw ld rl).entries
          ⟨si, (finalState locs tt si st lw ld rl).current_time +
            tt (finalState locs tt si st lw ld rl).current si, StopKind.hotelReturn⟩ rfl, hH]
      exact ⟨hL, le_refl _⟩
    · rw [if_neg hc]
      exact ⟨hL, by rw [hH]; omega⟩
  · intro froute endT mealsT h
    unfold apiPostProcess at h
    cases route with
    | nil => cases h
    | cons r0 rest =>
      dsimp only at h
      cases hloop : apiLoop locs tt si o rest
          { current_time := st, current_idx := ((r0 : Nat) : Int),
            froute := [((r0 : Nat) : Int)], lunch_taken := false,
            lunch_restaurant := none, meal_times := meals0 } with
      | none => rw [hloop] at h; cases h
      | some s =>
        rw [hloop] at h
        dsimp only at h
        have hinv := apiLoop_inv locs tt si o rest _ s hloop (apiInit_inv r0 st meals0)
        exact apiDinnerHotel_counts si o s end0 (froute, endT, mealsT) h hinv

/-- Concrete fixtures for the api post-processor witness: every location has
usable coordinates, the finder always returns the same restaurant, and every
haversine estimate is 5 minutes. -/
def locsW : List Location :=
  [⟨"Hotel", 0, 1440, 0, none⟩, ⟨"Museum", 0, 1440, 30, none⟩]

def rW : RestaurantResult :=
  ⟨"R", "addr", 0, 0, 720, 1320, 0⟩

def oW : ApiOracles :=
  { hasEntry := fun _ => true
    coordsOk := fun _ => true
    findNear := fun _ => some rW
    havTo := fun _ _ => 5
    havFrom := fun _ _ => 5
    havHotel := fun _ => 5
    havLoc := fun _ _ => 5 }

/-- Witness for claim C4's api-side implication at a concrete input: the
post-processor inserts one -2 lunch marker and one -1 dinner marker. -/
theorem meal_inserted_at_most_once_witness :
    apiPostProcess locsW ttC 0 700 oW [0, 1] 800 ApiMeals.empty =
      some ([0, -2, 1, -1, 0], 885,
        ⟨some 720, some ("R"), some ("addr"), some 820, some ("R"), some ("addr")⟩) ∧
    (([0, -2, 1, -1, 0] : List Int).countP isLunchMarker ≤ 1 ∧
     ([0, -2, 1, -1, 0] : List Int).countP isDinnerMarker ≤ 1) :=
  ⟨by decide,
    (meal_inserted_at_most_once locsW ttC 0 700 true (720, 900) 60 none oW [0, 1] 800
        ApiMeals.empty).2 [0, -2, 1, -1, 0] 885
      ⟨some 720, some ("R"), some ("addr"), some 820, some ("R"), some ("addr")⟩
      (by decide)⟩
